import Mathlib

/-! A 6502 emulator: shallow embedding of `6502.c`, `memory.c` and the run loop of `main.c`.

Machine integers are natural numbers or integers with the C conversions made
explicit: `u8`/`u16` are the conversions to `uint8_t`/`uint16_t`, `i8`/`i16`
the conversions to `int8_t`/`int16_t` (two's complement wrap-around).  The
processor record is passed explicitly; a function that mutates `*cpu` returns
the new record.
-/

namespace Emu6502

/-! ## C integer conversions -/

/-- Conversion of a non-negative value to `uint8_t`. -/
def u8 (n : Nat) : Nat := n % 256

/-- Conversion of a signed `int` value to `uint8_t`. -/
def u8i (z : Int) : Nat := (z % 256).toNat

/-- Conversion of a non-negative value to `uint16_t`. -/
def u16 (n : Nat) : Nat := n % 65536

/-- Conversion of a signed `int` value to `uint16_t`. -/
def u16i (z : Int) : Nat := (z % 65536).toNat

/-- The cast `(int8_t)v` of a byte: values from 128 up are negative. -/
def i8 (n : Nat) : Int := if n % 256 < 128 then (n % 256 : Nat) else (n % 256 : Nat) - 256

/-- Conversion of an `int` to `int16_t` (wrap-around into -32768..32767). -/
def i16 (z : Int) : Int := if z % 65536 < 32768 then z % 65536 else z % 65536 - 65536

/-- The C expression `(v >> n) & 1` on a signed `int` (arithmetic shift). -/
def sbit (v : Int) (n : Nat) : Nat := ((v / 2 ^ n) % 2).toNat

/-- A C comparison or equality test yields the `int` 1 or 0. -/
def b2n (b : Bool) : Nat := if b then 1 else 0

/-! ## memory.h / memory.c -/

/-- The `struct memory` interface together with the bytes behind it.
`decode_address_I` maps an address to the index of the byte cell that the
returned pointer designates; `store` is the content of the cells. -/
structure memory where
  decode_address_I : Nat → Nat
  store : Nat → Nat

def decode_address (mem : memory) (addr : Int) : Nat :=
  mem.decode_address_I (u16i addr)

def read8 (mem : memory) (indx : Int) : Nat :=
  mem.store (decode_address mem indx)

def read16 (mem : memory) (ptr : Int) : Nat :=
  let p : Int := u16i ptr
  let lo := u16 (read8 mem p)
  let hi := u16 (read8 mem (p + 1) <<< 8)
  u16 (hi ||| lo)

def write8 (mem : memory) (indx : Int) (writing : Nat) : memory :=
  let addr := decode_address mem indx
  { mem with store := fun i => if i = addr then u8 writing else mem.store i }

def write16 (mem : memory) (indx : Int) (writing : Nat) : memory :=
  let p : Int := u16i indx
  let w := u16 writing
  let mem := write8 mem p (u8 w)
  write8 mem (p + 1) (u8 (w >>> 8))

/-- The cell index selected by `decode_flat_2k`: `mem_2k->mem + (addr % 2048)`. -/
def decode_flat_2k (addr : Nat) : Nat := addr % 2048

/-- The result of `make_flat_2k_mem`; the freshly allocated 2048 bytes are
whatever `contents` says (the C code does not initialise them). -/
def make_flat_2k_mem (contents : Nat → Nat) : memory :=
  { decode_address_I := decode_flat_2k, store := contents }

/-! ## 6502.h -/

inductive OpCode where
  | BADOP
  | ADC | AND | ASL | BCC | BCS | BEQ | BIT | BMI | BNE | BPL | BRK | BVC | BVS | CLC
  | CLD | CLI | CLV | CMP | CPX | CPY | DEC | DEX | DEY | EOR | INC | INX | INY | JMP
  | JSR | LDA | LDX | LDY | LSR | NOP | ORA | PHA | PHP | PLA | PLP | ROL | ROR | RTI
  | RTS | SBC | SEC | SED | SEI | STA | STX | STY | TAX | TAY | TSX | TXA | TXS | TYA
  deriving DecidableEq, Repr

inductive AddressMode where
  | abso | abx | aby | zp | zpx | zpy | izx | izy | ind | imm | rel | noAddressMode
  deriving DecidableEq, Repr

structure cpu_info where
  a : Nat
  x : Nat
  y : Nat
  pc : Nat
  s : Nat
  mem : memory
  N : Nat
  V : Nat
  D : Nat
  I : Nat
  Z : Nat
  C : Nat
  cycles : Int
  visual_dirty : Int
  finished : Int
  stats : Int

/-! ## Decode tables (6502.c) -/

open OpCode AddressMode in
def int_address_modes : List AddressMode := [
  noAddressMode, izx, noAddressMode, izx, zp, zp, zp, zp, noAddressMode, imm, noAddressMode, imm, abso, abso, abso, abso,
  rel, izy, noAddressMode, izy, zpx, zpx, zpx, zpx, noAddressMode, aby, noAddressMode, aby, abx, abx, abx, abx,
  abso, izx, noAddressMode, izx, zp, zp, zp, zp, noAddressMode, imm, noAddressMode, imm, abso, abso, abso, abso,
  rel, izy, noAddressMode, izy, zpx, zpx, zpx, zpx, noAddressMode, aby, noAddressMode, aby, abx, abx, abx, abx,
  noAddressMode, izx, noAddressMode, izx, zp, zp, zp, zp, noAddressMode, imm, noAddressMode, imm, abso, abso, abso, abso,
  rel, izy, noAddressMode, izy, zpx, zpx, zpx, zpx, noAddressMode, aby, noAddressMode, aby, abx, abx, abx, abx,
  noAddressMode, izx, noAddressMode, izx, zp, zp, zp, zp, noAddressMode, imm, noAddressMode, imm, ind, abso, abso, abso,
  rel, izy, noAddressMode, izy, zpx, zpx, zpx, zpx, noAddressMode, aby, noAddressMode, aby, abx, abx, abx, abx,
  imm, izx, imm, izx, zp, zp, zp, zp, noAddressMode, imm, noAddressMode, imm, abso, abso, abso, abso,
  rel, izy, noAddressMode, izy, zpx, zpx, zpy, zpy, noAddressMode, aby, noAddressMode, aby, abx, abx, aby, aby,
  imm, izx, imm, izx, zp, zp, zp, zp, noAddressMode, imm, noAddressMode, imm, abso, abso, abso, abso,
  rel, izy, noAddressMode, izy, zpx, zpx, zpy, zpy, noAddressMode, aby, noAddressMode, aby, abx, abx, aby, aby,
  imm, izx, imm, izx, zp, zp, zp, zp, noAddressMode, imm, noAddressMode, imm, abso, abso, abso, abso,
  rel, izy, noAddressMode, izy, zpx, zpx, zpx, zpx, noAddressMode, aby, noAddressMode, aby, abx, abx, abx, abx,
  imm, izx, imm, izx, zp, zp, zp, zp, noAddressMode, imm, noAddressMode, imm, abso, abso, abso, abso,
  rel, izy, noAddressMode, izy, zpx, zpx, zpx, zpx, noAddressMode, aby, noAddressMode, aby, abx, abx, abx, abx ]

def int_cycles : List Int := [
  7, 6, 0, 8, 3, 3, 5, 5, 3, 2, 2, 2, 4, 4, 6, 6,
  3, 5, 0, 8, 4, 4, 6, 6, 2, 4, 2, 7, 4, 4, 7, 7,
  6, 6, 0, 8, 3, 3, 5, 5, 4, 2, 2, 2, 4, 4, 6, 6,
  2, 5, 0, 8, 4, 4, 6, 6, 2, 4, 2, 7, 4, 4, 7, 7,
  6, 6, 0, 8, 3, 3, 5, 5, 3, 2, 2, 2, 3, 4, 6, 6,
  3, 5, 0, 8, 4, 4, 6, 6, 2, 4, 2, 7, 4, 4, 7, 7,
  6, 6, 0, 8, 3, 3, 5, 5, 4, 2, 2, 2, 5, 4, 6, 6,
  2, 5, 0, 8, 4, 4, 6, 6, 2, 4, 2, 7, 4, 4, 7, 7,
  2, 6, 2, 6, 3, 3, 3, 3, 2, 2, 2, 2, 4, 4, 4, 4,
  3, 6, 0, 6, 4, 4, 4, 4, 2, 5, 2, 5, 5, 5, 5, 5,
  2, 6, 2, 6, 3, 3, 3, 3, 2, 2, 2, 2, 4, 4, 4, 4,
  2, 5, 0, 5, 4, 4, 4, 4, 2, 4, 2, 4, 4, 4, 4, 4,
  2, 6, 2, 8, 3, 3, 5, 5, 2, 2, 2, 2, 4, 4, 6, 6,
  3, 5, 0, 8, 4, 4, 6, 6, 2, 4, 2, 7, 4, 4, 7, 7,
  2, 6, 2, 8, 3, 3, 5, 5, 2, 2, 2, 2, 4, 4, 6, 6,
  2, 5, 0, 8, 4, 4, 6, 6, 2, 4, 2, 7, 4, 4, 7, 7 ]

def int_width : List Int := [
  1, 2, 0, 0, 2, 2, 2, 0, 1, 2, 1, 0, 3, 3, 3, 0,
  2, 2, 0, 0, 2, 2, 2, 0, 1, 3, 1, 0, 3, 3, 3, 0,
  3, 2, 0, 0, 2, 2, 2, 0, 1, 2, 1, 0, 3, 3, 3, 0,
  2, 2, 0, 0, 2, 2, 2, 0, 1, 3, 1, 0, 3, 3, 3, 0,
  1, 2, 0, 0, 2, 2, 2, 0, 1, 2, 1, 0, 3, 3, 3, 0,
  2, 2, 0, 0, 2, 2, 2, 0, 1, 3, 1, 0, 3, 3, 3, 0,
  1, 2, 0, 0, 2, 2, 2, 0, 1, 2, 1, 0, 3, 3, 3, 0,
  2, 2, 0, 0, 2, 2, 2, 0, 1, 3, 1, 0, 3, 3, 3, 0,
  2, 2, 0, 0, 2, 2, 2, 0, 1, 0, 1, 0, 3, 3, 3, 0,
  2, 2, 0, 0, 2, 2, 2, 0, 1, 3, 1, 0, 0, 3, 0, 0,
  2, 2, 2, 0, 2, 2, 2, 0, 1, 2, 1, 0, 3, 3, 3, 0,
  2, 2, 0, 0, 2, 2, 2, 0, 1, 3, 1, 0, 3, 3, 3, 0,
  2, 2, 0, 0, 2, 2, 2, 0, 1, 2, 1, 0, 3, 3, 3, 0,
  2, 2, 0, 0, 2, 2, 2, 0, 1, 3, 1, 0, 3, 3, 3, 0,
  2, 2, 0, 0, 2, 2, 2, 0, 1, 2, 1, 0, 3, 3, 3, 0,
  2, 2, 0, 0, 2, 2, 2, 0, 1, 3, 1, 0, 3, 3, 3, 0 ]

open OpCode in
def int_opcodes : List OpCode := [
  BRK, ORA, BADOP, BADOP, BADOP, ORA, ASL, BADOP, PHP, ORA, ASL, BADOP, BADOP, ORA, ASL, BADOP,
  BPL, ORA, BADOP, BADOP, BADOP, ORA, ASL, BADOP, CLC, ORA, BADOP, BADOP, BADOP, ORA, ASL, BADOP,
  JSR, AND, BADOP, BADOP, BIT, AND, ROL, BADOP, PLP, AND, ROL, BADOP, BIT, AND, ROL, BADOP,
  BMI, AND, BADOP, BADOP, BADOP, AND, ROL, BADOP, SEC, AND, BADOP, BADOP, BADOP, AND, ROL, BADOP,
  RTI, EOR, BADOP, BADOP, BADOP, EOR, LSR, BADOP, PHA, EOR, LSR, BADOP, JMP, EOR, LSR, BADOP,
  BVC, EOR, BADOP, BADOP, BADOP, EOR, LSR, BADOP, CLI, EOR, BADOP, BADOP, BADOP, EOR, LSR, BADOP,
  RTS, ADC, BADOP, BADOP, BADOP, ADC, ROR, BADOP, PLA, ADC, ROR, BADOP, JMP, ADC, ROR, BADOP,
  BVS, ADC, BADOP, BADOP, BADOP, ADC, ROR, BADOP, SEI, ADC, BADOP, BADOP, BADOP, ADC, ROR, BADOP,
  BADOP, STA, BADOP, BADOP, STY, STA, STX, BADOP, DEY, BADOP, TXA, BADOP, STY, STA, STX, BADOP,
  BCC, STA, BADOP, BADOP, STY, STA, STX, BADOP, TYA, STA, TXS, BADOP, BADOP, STA, BADOP, BADOP,
  LDY, LDA, LDX, BADOP, LDY, LDA, LDX, BADOP, TAY, LDA, TAX, BADOP, LDY, LDA, LDX, BADOP,
  BCS, LDA, BADOP, BADOP, LDY, LDA, LDX, BADOP, CLV, LDA, TSX, BADOP, LDY, LDA, LDX, BADOP,
  CPY, CMP, BADOP, BADOP, CPY, CMP, DEC, BADOP, INY, CMP, DEX, BADOP, CPY, CMP, DEC, BADOP,
  BNE, CMP, BADOP, BADOP, BADOP, CMP, DEC, BADOP, CLD, CMP, BADOP, BADOP, BADOP, CMP, DEC, BADOP,
  CPX, SBC, BADOP, BADOP, CPX, SBC, INC, BADOP, INX, SBC, NOP, BADOP, CPX, SBC, INC, BADOP,
  BEQ, SBC, BADOP, BADOP, BADOP, SBC, INC, BADOP, SED, SBC, BADOP, BADOP, BADOP, SBC, INC, BADOP ]

/-! ## 6502.c -/

def init_cpu_info (mem : memory) (stats : Int) : cpu_info :=
  { a := 0, x := 0, y := 0, pc := 0, s := 0, mem := mem,
    N := 0, V := 0, D := 0, I := 0, Z := 0, C := 0,
    cycles := 0, visual_dirty := 1, finished := 0, stats := stats }

def push8 (pushing : Nat) (cpu : cpu_info) : cpu_info :=
  let cpu := { cpu with mem := write8 cpu.mem ((0x100 ||| cpu.s : Nat) : Int) (u8 pushing) }
  { cpu with s := u8i ((cpu.s : Int) - 1) }

def push16 (pushing : Nat) (cpu : cpu_info) : cpu_info :=
  let h := u8 (u16 pushing >>> 8)
  let l := u8 (u16 pushing)
  let cpu := push8 h cpu
  push8 l cpu

def pull8 (cpu : cpu_info) : Nat × cpu_info :=
  let cpu := { cpu with s := u8 (cpu.s + 1) }
  (read8 cpu.mem ((0x100 ||| cpu.s : Nat) : Int), cpu)

def pull16 (cpu : cpu_info) : Nat × cpu_info :=
  let (l, cpu) := pull8 cpu
  let (h, cpu) := pull8 cpu
  (u16 ((h <<< 8) ||| l), cpu)

def pull_status (cpu : cpu_info) : cpu_info :=
  let (pulling, cpu) := pull8 cpu
  { cpu with
    N := (pulling >>> 7) &&& 1,
    V := (pulling >>> 6) &&& 1,
    D := (pulling >>> 3) &&& 1,
    I := (pulling >>> 2) &&& 1,
    Z := (pulling >>> 1) &&& 1,
    C := pulling &&& 1 }

def push_status (cpu : cpu_info) : cpu_info :=
  let pushing := u8 (cpu.N <<< 7)
  let pushing := u8 (pushing ||| (cpu.V <<< 6))
  let pushing := u8 (pushing ||| (0b00 <<< 4))
  let pushing := u8 (pushing ||| (cpu.D <<< 3))
  let pushing := u8 (pushing ||| (cpu.I <<< 2))
  let pushing := u8 (pushing ||| (cpu.Z <<< 1))
  let pushing := u8 (pushing ||| cpu.C)
  push8 pushing cpu

def push_status_brk (cpu : cpu_info) : cpu_info :=
  let pushing := u8 (cpu.N <<< 7)
  let pushing := u8 (pushing ||| (cpu.V <<< 6))
  let pushing := u8 (pushing ||| (0b10 <<< 4))
  let pushing := u8 (pushing ||| (cpu.D <<< 3))
  let pushing := u8 (pushing ||| (cpu.I <<< 2))
  let pushing := u8 (pushing ||| (cpu.Z <<< 1))
  let pushing := u8 (pushing ||| cpu.C)
  push8 pushing cpu

def trigger_nmi (cpu : cpu_info) : cpu_info :=
  let cpu := push16 cpu.pc cpu
  let cpu := push_status cpu
  let cpu := { cpu with I := 1 }
  { cpu with pc := read8 cpu.mem 0xfffa }

def trigger_irq (cpu : cpu_info) : cpu_info :=
  if cpu.I = 0 then
    let cpu := push16 cpu.pc cpu
    let cpu := push_status cpu
    let cpu := { cpu with I := 1 }
    { cpu with pc := read8 cpu.mem 0xfffe }
  else cpu

/-- The first `switch` of `step`: the `int16_t address` handed to the
operation, computed from the addressing mode, the old program counter and the
instruction width. -/
def step_address (cpu : cpu_info) (addrMode : AddressMode) (oldPc width : Int) : Int :=
  match addrMode with
  | .abso => i16 (read16 cpu.mem (oldPc + 1))
  | .abx => i16 (read16 cpu.mem (oldPc + 1) + i8 cpu.x)
  | .aby => i16 (read16 cpu.mem (oldPc + 1) + i8 cpu.y)
  | .imm => i16 (oldPc + 1)
  | .rel => i16 (oldPc + width + i8 (read8 cpu.mem (oldPc + 1)))
  | .zp => i16 (read8 cpu.mem (oldPc + 1))
  | .zpx => i16 (read8 cpu.mem (oldPc + 1) + i8 cpu.x)
  | .zpy => i16 (read8 cpu.mem (oldPc + 1) + i8 cpu.y)
  | .ind => i16 (read16 cpu.mem (read16 cpu.mem (oldPc + 1)))
  | .izx => i16 (read16 cpu.mem (i16 (read8 cpu.mem (oldPc + 1)) + i16 cpu.x))
  | .izy => i16 (read16 cpu.mem (i16 (read8 cpu.mem (oldPc + 1))) + i16 cpu.y)
  | .noAddressMode => 0

/-- The store instructions raise `visual_dirty` when the signed address lies
in 0x200..0x5ff. -/
def set_dirty (cpu : cpu_info) (address : Int) : cpu_info :=
  if 0x200 ≤ address ∧ address ≤ 0x5ff then { cpu with visual_dirty := 1 } else cpu

/-- Refresh of `Z` and `N` from a byte, as written after most operations:
`Z = v == 0 ? 1 : 0; N = (v >> 7) & 1`. -/
def set_zn (cpu : cpu_info) (v : Nat) : cpu_info :=
  { cpu with Z := b2n (v = 0), N := (v >>> 7) &&& 1 }

/-- The second `switch` of `step`: the effect of operation `op` on the record
whose program counter and cycle counter have already been updated.  The left
shift of `ASL` is the exact product by a power of two before the conversion
to `uint8_t` (C defines it only for counts below the width of `int`). -/
def step_execute (cpu : cpu_info) (op : OpCode) (addrMode : AddressMode) (address : Int) :
    cpu_info :=
  match op with
  | .ADC =>
    let over := u8 (cpu.a + read8 cpu.mem address + cpu.C)
    let cpu := { cpu with C := b2n (over < cpu.a) }
    let cpu := { cpu with a := over }
    let cpu := { cpu with N := (cpu.a >>> 7) &&& 1 }
    { cpu with Z := b2n (cpu.a = 0) }
  | .AND =>
    let cpu := { cpu with a := u8 (cpu.a &&& read8 cpu.mem address) }
    set_zn cpu cpu.a
  | .ASL =>
    let cpu := { cpu with C := (cpu.a >>> 7) &&& 1 }
    let cpu := { cpu with a := u8 (cpu.a <<< read8 cpu.mem address) }
    set_zn cpu cpu.a
  | .BCC => if cpu.C = 0 then { cpu with pc := u16i address } else cpu
  | .BCS => if cpu.C = 1 then { cpu with pc := u16i address } else cpu
  | .BEQ => if cpu.Z = 1 then { cpu with pc := u16i address } else cpu
  | .BIT =>
    let val := read8 cpu.mem address
    let cpu := { cpu with V := (val >>> 6) &&& 1 }
    let cpu := { cpu with N := (val >>> 7) &&& 1 }
    { cpu with Z := b2n (cpu.a &&& val = 0) }
  | .BMI => if cpu.N = 1 then { cpu with pc := u16i address } else cpu
  | .BNE => if cpu.Z = 0 then { cpu with pc := u16i address } else cpu
  | .BPL => if cpu.N = 0 then { cpu with pc := u16i address } else cpu
  | .BRK => { cpu with finished := 1 }
  | .BVC => if cpu.V = 0 then { cpu with pc := u16i address } else cpu
  | .BVS => if cpu.V = 1 then { cpu with pc := u16i address } else cpu
  | .CLC => { cpu with C := 0 }
  | .CLD => { cpu with D := 0 }
  | .CLI => { cpu with I := 0 }
  | .CLV => { cpu with V := 0 }
  | .CMP =>
    let val := read8 cpu.mem address
    let cpu := { cpu with C := b2n (cpu.a ≥ val) }
    let cpu := { cpu with Z := b2n (cpu.a = val) }
    { cpu with N := sbit ((cpu.a : Int) - val) 7 }
  | .CPX =>
    let val := read8 cpu.mem address
    let cpu := { cpu with C := b2n (cpu.x ≥ val) }
    let cpu := { cpu with Z := b2n (cpu.x = val) }
    { cpu with N := sbit ((cpu.x : Int) - val) 7 }
  | .CPY =>
    let val := read8 cpu.mem address
    let cpu := { cpu with C := b2n (cpu.y ≥ val) }
    let cpu := { cpu with Z := b2n (cpu.y = val) }
    { cpu with N := sbit ((cpu.y : Int) - val) 7 }
  | .DEC =>
    let val := u8i ((read8 cpu.mem address : Int) - 1)
    let cpu := { cpu with mem := write8 cpu.mem address val }
    set_zn cpu val
  | .DEX =>
    let cpu := { cpu with x := u8i ((cpu.x : Int) - 1) }
    set_zn cpu cpu.x
  | .DEY =>
    let cpu := { cpu with y := u8i ((cpu.y : Int) - 1) }
    set_zn cpu cpu.y
  | .EOR =>
    let _val := u8 (cpu.a ^^^ read8 cpu.mem address)
    set_zn cpu cpu.a
  | .INC =>
    let val := u8 (read8 cpu.mem address + 1)
    let cpu := { cpu with mem := write8 cpu.mem address val }
    set_zn cpu val
  | .INX =>
    let cpu := { cpu with x := u8 (cpu.x + 1) }
    set_zn cpu cpu.x
  | .INY =>
    let cpu := { cpu with y := u8 (cpu.y + 1) }
    set_zn cpu cpu.y
  | .JMP => { cpu with pc := u16i address }
  | .JSR =>
    let cpu := push16 (u16i ((cpu.pc : Int) - 1)) cpu
    { cpu with pc := u16i address }
  | .LDA =>
    let cpu := { cpu with a := read8 cpu.mem address }
    set_zn cpu cpu.a
  | .LDX =>
    let cpu := { cpu with x := read8 cpu.mem address }
    set_zn cpu cpu.x
  | .LDY =>
    let cpu := { cpu with y := read8 cpu.mem address }
    set_zn cpu cpu.y
  | .LSR =>
    if addrMode = .noAddressMode then
      let cpu := { cpu with C := cpu.a &&& 1 }
      let cpu := { cpu with a := u8 (cpu.a >>> 1) }
      set_zn cpu cpu.a
    else
      let old := read8 cpu.mem address
      let new := u8 (old >>> 1)
      let cpu := { cpu with C := old &&& 1 }
      let cpu := { cpu with mem := write8 cpu.mem address (old >>> 1) }
      set_zn cpu new
  | .NOP => cpu
  | .ORA =>
    let cpu := { cpu with y := u8 (cpu.a ||| read8 cpu.mem address) }
    set_zn cpu cpu.a
  | .PHA => push8 cpu.a cpu
  | .PHP => push_status cpu
  | .PLA =>
    let (v, cpu) := pull8 cpu
    { cpu with a := v }
  | .PLP => pull_status cpu
  | .ROL =>
    if addrMode = .noAddressMode then
      let val := cpu.a
      let working := u8 (val <<< 1)
      let working := u8 (working ||| (val >>> 7))
      let cpu := { cpu with a := working }
      let cpu := { cpu with Z := (working >>> 7) &&& 0x01 }
      { cpu with C := val &&& 0x01 }
    else
      let val := read8 cpu.mem address
      let working := u8 (val <<< 1)
      let working := u8 (working ||| (val >>> 7))
      let cpu := { cpu with mem := write8 cpu.mem address working }
      let cpu := { cpu with C := val &&& 0x01 }
      { cpu with Z := (working >>> 7) &&& 0x01 }
  | .ROR =>
    if addrMode = .noAddressMode then
      let val := cpu.a
      let working := u8 (val >>> 1)
      let working := u8 (working ||| (val <<< 7))
      let cpu := { cpu with a := working }
      let cpu := { cpu with Z := (working >>> 7) &&& 0x01 }
      { cpu with C := val &&& 0x01 }
    else
      let val := read8 cpu.mem address
      let working := u8 (val >>> 1)
      let working := u8 (working ||| (val <<< 7))
      let cpu := { cpu with mem := write8 cpu.mem address working }
      let cpu := { cpu with C := val &&& 0x01 }
      { cpu with Z := (working >>> 7) &&& 0x01 }
  | .RTI =>
    let cpu := pull_status cpu
    let (v, cpu) := pull16 cpu
    { cpu with pc := v }
  | .RTS =>
    let (v, cpu) := pull16 cpu
    { cpu with pc := u16 (v + 1) }
  | .SBC =>
    let c := u8i (1 + (-(cpu.C : Int)))
    let over := u8i ((cpu.a : Int) + (-(read8 cpu.mem address : Int)) + (-(c : Int)))
    let cpu := { cpu with C := b2n (over < cpu.a) }
    let cpu := { cpu with a := over }
    let cpu := { cpu with N := (cpu.a >>> 7) &&& 1 }
    { cpu with Z := b2n (cpu.a = 0) }
  | .SEC => { cpu with C := 1 }
  | .SED => { cpu with D := 1 }
  | .SEI => { cpu with I := 1 }
  | .STA => set_dirty { cpu with mem := write8 cpu.mem address cpu.a } address
  | .STX => set_dirty { cpu with mem := write8 cpu.mem address cpu.x } address
  | .STY => set_dirty { cpu with mem := write8 cpu.mem address cpu.y } address
  | .TAX =>
    let cpu := { cpu with x := cpu.a }
    set_zn cpu cpu.x
  | .TAY =>
    let cpu := { cpu with y := cpu.a }
    set_zn cpu cpu.y
  | .TSX =>
    let cpu := { cpu with x := cpu.s }
    set_zn cpu cpu.x
  | .TXA =>
    let cpu := { cpu with a := cpu.x }
    set_zn cpu cpu.a
  | .TXS =>
    let cpu := { cpu with s := cpu.x }
    set_zn cpu cpu.s
  | .TYA =>
    let cpu := { cpu with a := cpu.y }
    set_zn cpu cpu.a
  | .BADOP => cpu

def step (cpu : cpu_info) : cpu_info :=
  let cpu := { cpu with stats := cpu.stats + 1 }
  if cpu.cycles > 0 then
    { cpu with cycles := cpu.cycles - 1 }
  else
    let oldPc : Int := cpu.pc
    let instr := read8 cpu.mem oldPc
    let op := int_opcodes.getD instr OpCode.BADOP
    let addrMode := int_address_modes.getD instr AddressMode.noAddressMode
    let cycles := int_cycles.getD instr 0
    let width := int_width.getD instr 0
    let cpu := { cpu with cycles := cycles }
    let address := step_address cpu addrMode oldPc width
    let cpu := { cpu with pc := u16i ((cpu.pc : Int) + width) }
    step_execute cpu op addrMode address

/-! ## main.c -/

/-- The loop `while(!cpu.finished){ step(&cpu); ... }` of `main`, cut off after
`fuel` iterations. -/
def main_loop : Nat → cpu_info → cpu_info
  | 0, cpu => cpu
  | fuel + 1, cpu => if cpu.finished = 0 then main_loop fuel (step cpu) else cpu

/-! ## nes_memory.c -/

def RAM_END : Nat := 0x1FFF

def PPU_END : Nat := 0x3FFF

def APU_END : Nat := 0x4017

def APU_DISABLED_END : Nat := 0x401F

def CART_END : Nat := 0xFFFF

/-- The location returned by `decode_nes`, as an index into `mem_nes->ram`.
Only the RAM branch has a `return`; in the other four branches control reaches
the end of the function without one, so no location is produced. -/
def decode_nes (addr : Nat) : Option Nat :=
  if addr ≤ RAM_END then
    some (addr &&& 0x7FF)
  else if addr ≤ PPU_END then
    none
  else if addr ≤ APU_END then
    none
  else if addr ≤ APU_DISABLED_END then
    none
  else
    none

/-! ## Decode helpers and concrete machine states -/

/-- The record prepared as `main` does it: reset state over a flat memory with
the given contents, program counter 0x0600 and stack pointer 0xFF. -/
def boot (contents : Nat → Nat) : cpu_info :=
  { init_cpu_info (make_flat_2k_mem contents) 0 with pc := 0x0600, s := 0xFF }

/-- The opcode byte under the program counter. -/
def fetch_opcode (cpu : cpu_info) : Nat := read8 cpu.mem cpu.pc

/-- The operation that `step` decodes from the byte under the program counter. -/
def fetch_op (cpu : cpu_info) : OpCode := int_opcodes.getD (fetch_opcode cpu) OpCode.BADOP

/-- The addressing mode that `step` decodes from the byte under the program counter. -/
def fetch_mode (cpu : cpu_info) : AddressMode :=
  int_address_modes.getD (fetch_opcode cpu) AddressMode.noAddressMode

/-- The `address` that `step` computes for the instruction under the program counter. -/
def fetch_address (cpu : cpu_info) : Int :=
  step_address cpu (fetch_mode cpu) cpu.pc (int_width.getD (fetch_opcode cpu) 0)

/-- The operand byte `read8(cpu->mem, address)` of the instruction under the
program counter. -/
def fetch_operand (cpu : cpu_info) : Nat := read8 cpu.mem (fetch_address cpu)

/-- A zeroed flat memory with the two bytes `b0 b1` at 0x0600. -/
def image2 (b0 b1 : Nat) : Nat → Nat :=
  fun i => if i = 0x600 then b0 else if i = 0x601 then b1 else 0

/-- The bytes `A9 05` (LDA #5) at 0x0600. -/
def lda5_image : Nat → Nat := image2 0xA9 0x05

/-- The bytes `A9 00 F0 02` (LDA #0; BEQ +2) at 0x0600. -/
def beq_image : Nat → Nat := fun i =>
  if i = 0x600 then 0xA9 else if i = 0x601 then 0x00 else if i = 0x602 then 0xF0
  else if i = 0x603 then 0x02 else 0

/-- INX (E8) at 0x0600 with A = 0xFF and X = 0x01. -/
def inx_state : cpu_info := { boot (image2 0xE8 0x00) with a := 0xFF, x := 0x01 }

/-- ADC #0xFF (69 FF) at 0x0600 with A = 0x00 and Carry = 1. -/
def adc_carry_state : cpu_info := { boot (image2 0x69 0xFF) with a := 0x00, C := 1 }

/-- ADC #0x01 (69 01) at 0x0600 with A = 0x7F, Carry = 0 and Overflow = 0. -/
def adc_overflow_state : cpu_info := { boot (image2 0x69 0x01) with a := 0x7F }

/-- ORA #0x80 (09 80) at 0x0600 with A = 0x00 and Y = 0x00. -/
def ora_state : cpu_info := boot (image2 0x09 0x80)

/-- EOR #0xFF (49 FF) at 0x0600 with A = 0xFF. -/
def eor_state : cpu_info := { boot (image2 0x49 0xFF) with a := 0xFF }

/-- ASL A (0A) at 0x0600 with A = 0x01; the byte at address 0 is 0. -/
def asl_acc_state : cpu_info := { boot (image2 0x0A 0x00) with a := 0x01 }

/-- ASL zero-page (06 10) at 0x0600 with A = 0x01 and the byte 0x03 at 0x0010. -/
def asl_zp_state : cpu_info :=
  { boot (fun i => if i = 0x10 then 0x03 else image2 0x06 0x10 i) with a := 0x01 }

/-- ROL A (2A) at 0x0600 with A = 0xC0 and all flags clear. -/
def rol_acc_state : cpu_info := { boot (image2 0x2A 0x00) with a := 0xC0 }

/-- ROR A (6A) at 0x0600 with A = 0x01 and all flags clear. -/
def ror_acc_state : cpu_info := { boot (image2 0x6A 0x00) with a := 0x01 }

/-- CMP #0x30 (C9 30) at 0x0600 with A = 0x40. -/
def cmp_state : cpu_info := { boot (image2 0xC9 0x30) with a := 0x40 }

/-- BEQ +0x10 (F0 10) at 0x0600 with Zero = 1. -/
def beq_taken_state : cpu_info := { boot (image2 0xF0 0x10) with Z := 1 }

/-- DEC 0x10 (C6 10) at 0x0600 with the byte 0x00 at 0x0010. -/
def dec_zp_state : cpu_info := boot (image2 0xC6 0x10)

/-- The reset record over a zeroed flat memory with stack pointer 0x00. -/
def stack_wrap_state : cpu_info := { boot (fun _ => 0) with s := 0x00 }

/-- The reset record over a zeroed flat memory with Negative = 1, Zero = 1 and
Carry = 1. -/
def flags_state : cpu_info := { boot (fun _ => 0) with N := 1, Z := 1, C := 1 }

/-- JSR 0x0610 (20 10 06) at 0x0600 and RTS (60) at 0x0610, in a zeroed flat
memory; stack pointer 0xFF. -/
def jsr_state : cpu_info :=
  boot (fun i => if i = 0x600 then 0x20 else if i = 0x601 then 0x10 else if i = 0x602 then 0x06
    else if i = 0x610 then 0x60 else 0)

/-- The record after the JSR of `jsr_state` has been executed and the six
following calls have counted its cycles down. -/
def jsr_done_state : cpu_info := step (step (step (step (step (step (step jsr_state))))))

/-- A flat memory with the vector bytes 0x34, 0x12 in the cells of 0xFFFA and
0xFFFB (0x07FA and 0x07FB) and zero elsewhere; program counter 0x1234, stack
pointer 0xFF, Negative = 1 and Carry = 1. -/
def nmi_state : cpu_info :=
  { boot (fun i => if i = 0x7FA then 0x34 else if i = 0x7FB then 0x12 else 0) with
    pc := 0x1234, N := 1, C := 1 }

/-- A flat memory with the vector bytes 0x78, 0x56 in the cells of 0xFFFE and
0xFFFF (0x07FE and 0x07FF) and zero elsewhere; InterruptDisable = 0. -/
def irq_state : cpu_info :=
  { boot (fun i => if i = 0x7FE then 0x78 else if i = 0x7FF then 0x56 else 0) with
    pc := 0x1234 }

/-- LDA #5 (A9 05) at 0x0600 with the halt indicator set. -/
def halted_state : cpu_info := { boot (image2 0xA9 0x05) with finished := 1 }

/-- BRK (00) at 0x0600. -/
def brk_state : cpu_info := boot (image2 0x00 0x00)

/-- The invalid byte 0x02 at 0x0600, with A = 0x11 and Carry = 1. -/
def badop_state : cpu_info := { boot (image2 0x02 0x00) with a := 0x11, C := 1 }

/-- LDX 0x1234 (AE 34 12) at 0x0600. -/
def ldx_abs_state : cpu_info :=
  boot (fun i => if i = 0x600 then 0xAE else if i = 0x601 then 0x34 else if i = 0x602 then 0x12
    else 0)

/-- LDA 0xFF,X (B5 FF) at 0x0600 with X = 0x01; the bytes 0x11 at 0x0000 and
0x22 at 0x0100. -/
def zpx_carry_state : cpu_info :=
  { boot (fun i => if i = 0x000 then 0x11 else if i = 0x100 then 0x22
      else image2 0xB5 0xFF i) with x := 0x01 }

/-- LDA 0x10,X (B5 10) at 0x0600 with X = 0x80; the bytes 0x44 at 0x0090 and
0x33 in cell 0x0790, the cell of address 0xFF90. -/
def zpx_signed_state : cpu_info :=
  { boot (fun i => if i = 0x090 then 0x44 else if i = 0x790 then 0x33
      else image2 0xB5 0x10 i) with x := 0x80 }

/-- Each of the six flag fields holds 0 or 1. -/
def flags_ok (cpu : cpu_info) : Prop :=
  (cpu.N = 0 ∨ cpu.N = 1) ∧ (cpu.V = 0 ∨ cpu.V = 1) ∧ (cpu.D = 0 ∨ cpu.D = 1) ∧
  (cpu.I = 0 ∨ cpu.I = 1) ∧ (cpu.Z = 0 ∨ cpu.Z = 1) ∧ (cpu.C = 0 ∨ cpu.C = 1)

instance flags_ok_decidable (cpu : cpu_info) : Decidable (flags_ok cpu) := by
  unfold flags_ok
  infer_instance

/-- PLP (28) at 0x0600 with stack pointer 0xFE and the byte 0xFF at 0x01FF. -/
def plp_state : cpu_info :=
  { boot (fun i => if i = 0x1FF then 0xFF else image2 0x28 0x00 i) with s := 0xFE }

/-! ## Basic facts -/

theorem read8_flat (contents : Nat → Nat) (z : Int) :
    read8 (make_flat_2k_mem contents) z = contents ((z % 65536).toNat % 2048) := rfl

theorem u16i_i16 (z : Int) : u16i (i16 z) = u16i z := by
  unfold u16i i16
  split_ifs <;> congr 1 <;> omega

theorem bit7_eq (v : Nat) : (v >>> 7) &&& 1 = v / 128 % 2 := by
  rw [Nat.shiftRight_eq_div_pow, Nat.and_one_is_mod]

theorem read8_i16 (mem : memory) (z : Int) : read8 mem (i16 z) = read8 mem z := by
  unfold read8 decode_address
  rw [u16i_i16]

/-- A fetch (cycle counter not positive) decodes the byte at the program
counter through the four tables and runs the two switches. -/
theorem step_fetch (cpu : cpu_info) (h : cpu.cycles ≤ 0) :
    step cpu =
      step_execute
        { cpu with
          stats := cpu.stats + 1,
          cycles := int_cycles.getD (read8 cpu.mem cpu.pc) 0,
          pc := u16i ((cpu.pc : Int) + int_width.getD (read8 cpu.mem cpu.pc) 0) }
        (int_opcodes.getD (read8 cpu.mem cpu.pc) OpCode.BADOP)
        (int_address_modes.getD (read8 cpu.mem cpu.pc) AddressMode.noAddressMode)
        (step_address { cpu with stats := cpu.stats + 1,
                                 cycles := int_cycles.getD (read8 cpu.mem cpu.pc) 0 }
          (int_address_modes.getD (read8 cpu.mem cpu.pc) AddressMode.noAddressMode)
          cpu.pc (int_width.getD (read8 cpu.mem cpu.pc) 0)) := by
  unfold step
  simp only [gt_iff_lt, not_lt.mpr h, if_false]

/-- While the cycle counter is positive a call only counts it down. -/
theorem step_idle (cpu : cpu_info) (h : 0 < cpu.cycles) :
    step cpu = { cpu with stats := cpu.stats + 1, cycles := cpu.cycles - 1 } := by
  unfold step
  simp only [gt_iff_lt, h, if_true]

/-- The address computation reads only the memory and the index registers. -/
theorem step_address_frame (cpu : cpu_info) (st cy : Int) (mode : AddressMode) (pc w : Int) :
    step_address { cpu with stats := st, cycles := cy } mode pc w = step_address cpu mode pc w := by
  cases mode <;> rfl

/-- The fetch step, phrased with the decode helpers. -/
theorem step_decode (cpu : cpu_info) (h : cpu.cycles ≤ 0) :
    step cpu =
      step_execute
        { cpu with
          stats := cpu.stats + 1,
          cycles := int_cycles.getD (fetch_opcode cpu) 0,
          pc := u16i ((cpu.pc : Int) + int_width.getD (fetch_opcode cpu) 0) }
        (fetch_op cpu) (fetch_mode cpu) (fetch_address cpu) := by
  rw [step_fetch cpu h, step_address_frame]
  rfl

theorem sbit7_eq (v : Int) : sbit v 7 = (v % 256 / 128).toNat := by
  unfold sbit
  congr 1
  omega

theorem b2n_eq_one (b : Bool) : b2n b = 1 ↔ b = true := by
  cases b <;> simp [b2n]

theorem b2n_eq_zero (b : Bool) : b2n b = 0 ↔ b = false := by
  cases b <;> simp [b2n]

set_option maxRecDepth 100000 in
theorem int_opcodes_length : int_opcodes.length = 256 := by
  decide

/-- Bytes outside the table decode to `BADOP`. -/
theorem int_opcodes_large (b : Nat) (h : 256 ≤ b) :
    int_opcodes.getD b OpCode.BADOP = OpCode.BADOP := by
  apply List.getD_eq_default
  rw [int_opcodes_length]
  exact h

set_option maxRecDepth 100000 in
/-- Every branch opcode has relative addressing and width 2. -/
theorem branch_decode_small :
    ∀ b, b < 256 →
      int_opcodes.getD b OpCode.BADOP ∈
        [OpCode.BCC, OpCode.BCS, OpCode.BEQ, OpCode.BNE, OpCode.BMI, OpCode.BPL, OpCode.BVC,
          OpCode.BVS] →
      int_address_modes.getD b AddressMode.noAddressMode = AddressMode.rel ∧
      int_width.getD b 0 = 2 := by
  decide

theorem branch_decode (cpu : cpu_info)
    (h : fetch_op cpu ∈
        [OpCode.BCC, OpCode.BCS, OpCode.BEQ, OpCode.BNE, OpCode.BMI, OpCode.BPL, OpCode.BVC,
          OpCode.BVS]) :
    fetch_mode cpu = AddressMode.rel ∧ int_width.getD (fetch_opcode cpu) 0 = 2 := by
  by_cases hb : fetch_opcode cpu < 256
  · exact branch_decode_small _ hb h
  · exfalso
    unfold fetch_op at h
    rw [int_opcodes_large _ (not_lt.mp hb)] at h
    simp at h

/-- A byte written through `write8` is read back at the same address. -/
theorem read8_write8_same (mem : memory) (a : Int) (v : Nat) :
    read8 (write8 mem a v) a = u8 v := by
  simp [read8, write8, decode_address]

theorem u8_u8 (v : Nat) : u8 (u8 v) = u8 v := by
  simp [u8]

theorem u8_u8i (z : Int) : u8 (u8i z) = u8i z := by
  unfold u8 u8i
  omega

set_option maxRecDepth 100000 in
/-- On a byte the stack address `0x100 | s` is `0x100 + s`. -/
theorem stack_or (s : Nat) (h : s < 256) : 0x100 ||| s = 0x100 + s := by
  revert s
  decide

theorem hi_lo_or (h l : Nat) (hl : l < 256) : (h <<< 8) ||| l = h * 256 + l := by
  rw [Nat.shiftLeft_eq, Nat.mul_comm, ← Nat.mul_add_lt_is_or (by simpa using hl)]

theorem push8_flat (contents : Nat → Nat) (cpu : cpu_info) (p : Nat)
    (hmem : cpu.mem = make_flat_2k_mem contents) (hs : cpu.s < 256) :
    push8 p cpu =
      { cpu with
        mem := make_flat_2k_mem (fun i => if i = 0x100 + cpu.s then p % 256 else contents i),
        s := (cpu.s + 255) % 256 } := by
  unfold push8
  simp only [hmem, stack_or _ hs]
  have e1 : u8i ((cpu.s : Int) - 1) = (cpu.s + 255) % 256 := by
    unfold u8i
    omega
  have e2 : write8 (make_flat_2k_mem contents) ((256 + cpu.s : Nat) : Int) (u8 p) =
      make_flat_2k_mem (fun i => if i = 256 + cpu.s then p % 256 else contents i) := by
    simp only [write8, make_flat_2k_mem, decode_address, decode_flat_2k, u8, u16i]
    congr 1
    funext i
    have : (((256 + cpu.s : Nat) : Int) % 65536).toNat % 2048 = 256 + cpu.s := by omega
    rw [this]
    simp
  rw [e1, e2]

theorem pull8_flat (contents : Nat → Nat) (cpu : cpu_info)
    (hmem : cpu.mem = make_flat_2k_mem contents) :
    pull8 cpu = (contents (0x100 + (cpu.s + 1) % 256), { cpu with s := (cpu.s + 1) % 256 }) := by
  unfold pull8
  simp only [u8, hmem, stack_or _ (Nat.mod_lt (cpu.s + 1) (by decide : 256 > 0))]
  congr 1
  rw [read8_flat]
  congr 1
  omega

theorem shr_and_one (v k : Nat) : (v >>> k) &&& 1 = v / 2 ^ k % 2 := by
  rw [Nat.shiftRight_eq_div_pow, Nat.and_one_is_mod]

/-- With flags that are 0 or 1, `push_status` pushes the byte
128 N + 64 V + 8 D + 4 I + 2 Z + C. -/
theorem push_status_eq (cpu : cpu_info)
    (hN : cpu.N = 0 ∨ cpu.N = 1) (hV : cpu.V = 0 ∨ cpu.V = 1) (hD : cpu.D = 0 ∨ cpu.D = 1)
    (hI : cpu.I = 0 ∨ cpu.I = 1) (hZ : cpu.Z = 0 ∨ cpu.Z = 1) (hC : cpu.C = 0 ∨ cpu.C = 1) :
    push_status cpu =
      push8 (cpu.N * 128 + cpu.V * 64 + cpu.D * 8 + cpu.I * 4 + cpu.Z * 2 + cpu.C) cpu := by
  unfold push_status
  simp only []
  congr 1
  rcases hN with h1 | h1 <;> rcases hV with h2 | h2 <;> rcases hD with h3 | h3 <;>
    rcases hI with h4 | h4 <;> rcases hZ with h5 | h5 <;> rcases hC with h6 | h6 <;>
    rw [h1, h2, h3, h4, h5, h6] <;> rfl

/-- The byte pushed by `push8` is the one `pull8` returns, over any memory. -/
theorem pull8_push8 (cpu : cpu_info) (p : Nat) (hs : cpu.s < 256) (hp : p < 256)
    (n v d i z c : Nat) :
    pull8 { push8 p cpu with N := n, V := v, D := d, I := i, Z := z, C := c } =
      (p, { cpu with mem := write8 cpu.mem ((0x100 ||| cpu.s : Nat) : Int) p,
                     N := n, V := v, D := d, I := i, Z := z, C := c }) := by
  unfold pull8 push8
  have e1 : u8 (u8i ((cpu.s : Int) - 1) + 1) = cpu.s := by
    unfold u8 u8i
    omega
  have e2 : u8 p = p := by
    unfold u8
    omega
  simp only [e1, e2, read8_write8_same]

/-- A write leaves the bytes of other cells alone. -/
theorem read8_write8_other (mem : memory) (a b : Int) (v : Nat)
    (h : decode_address mem a ≠ decode_address mem b) :
    read8 (write8 mem a v) b = read8 mem b := by
  simp only [read8, write8, decode_address] at h ⊢
  rw [if_neg (Ne.symm h)]

theorem decode_write8 (mem : memory) (a b : Int) (v : Nat) :
    decode_address (write8 mem a v) b = decode_address mem b := rfl

/-- Over any memory, `push16` writes the high byte at `0x100 + s`, then the low
byte one below (modulo 256), and moves the stack pointer down by two. -/
theorem push16_eq (cpu : cpu_info) (v : Nat) (hs : cpu.s < 256) :
    push16 v cpu =
      { cpu with
        mem := write8 (write8 cpu.mem ((0x100 + cpu.s : Nat) : Int) (u16 v / 256))
          ((0x100 + (cpu.s + 255) % 256 : Nat) : Int) (u16 v % 256),
        s := (cpu.s + 254) % 256 } := by
  have e1 : u8i ((cpu.s : Int) - 1) = (cpu.s + 255) % 256 := by
    unfold u8i
    omega
  have e2 : u8i (((cpu.s + 255) % 256 : Nat) - 1 : Int) = (cpu.s + 254) % 256 := by
    unfold u8i
    omega
  have e3 : u8 (u8 (u16 v >>> 8)) = u16 v / 256 := by
    unfold u8 u16
    rw [Nat.shiftRight_eq_div_pow]
    omega
  have e4 : u8 (u8 (u16 v)) = u16 v % 256 := by
    unfold u8
    omega
  unfold push16 push8
  simp only [e1, e2, e3, e4, stack_or _ hs, stack_or _ (Nat.mod_lt (cpu.s + 255) (by decide))]

/-- When the two stack cells above the pointer hold `l` and `h`, `pull16`
returns `h * 256 + l` and moves the stack pointer up by two. -/
theorem pull16_of_stack (c : cpu_info) (s h l : Nat) (hs : s < 256) (hh : h < 256)
    (hl : l < 256) (hsp : c.s = (s + 254) % 256)
    (hH : read8 c.mem ((0x100 + s : Nat) : Int) = h)
    (hL : read8 c.mem ((0x100 + (s + 255) % 256 : Nat) : Int) = l) :
    pull16 c = (h * 256 + l, { c with s := s }) := by
  have a1 : u8 (c.s + 1) = (s + 255) % 256 := by
    unfold u8
    omega
  have a2 : u8 ((s + 255) % 256 + 1) = s := by
    unfold u8
    omega
  have a3 : u16 (h * 256 + l) = h * 256 + l := by
    unfold u16
    omega
  unfold pull16 pull8
  simp only [a1, a2, stack_or _ hs, stack_or _ (Nat.mod_lt (s + 255) (by decide)), hH, hL,
    hi_lo_or _ _ hl, a3]

theorem read16_lt (mem : memory) (p : Int) : read16 mem p < 65536 := by
  unfold read16 u16
  exact Nat.mod_lt _ (by decide)

/-- No operation clears the halt indicator: it keeps its value or becomes 1. -/
theorem step_execute_finished (c : cpu_info) (op : OpCode) (m : AddressMode) (a : Int) :
    (step_execute c op m a).finished = c.finished ∨ (step_execute c op m a).finished = 1 := by
  cases op <;>
    simp only [step_execute, set_zn, set_dirty, push8, push16, pull8, pull16, pull_status,
      push_status] <;>
    (try split_ifs) <;> simp

/-- Outside the control transfers no operation writes the program counter. -/
theorem step_execute_pc (c : cpu_info) (op : OpCode) (m : AddressMode) (a : Int)
    (h : op ∉ [OpCode.BCC, OpCode.BCS, OpCode.BEQ, OpCode.BNE, OpCode.BMI, OpCode.BPL,
      OpCode.BVC, OpCode.BVS, OpCode.JMP, OpCode.JSR, OpCode.RTS, OpCode.RTI]) :
    (step_execute c op m a).pc = c.pc := by
  cases op <;> simp at h <;>
    simp only [step_execute, set_zn, set_dirty, push8, push16, pull8, pull16, pull_status,
      push_status] <;>
    (try split_ifs) <;> rfl

set_option maxRecDepth 100000 in
/-- The width table is 1, 2 or 3 wherever the operation table is not `BADOP`. -/
theorem valid_width_small :
    ∀ b, b < 256 → int_opcodes.getD b OpCode.BADOP ≠ OpCode.BADOP →
      int_width.getD b 0 = 1 ∨ int_width.getD b 0 = 2 ∨ int_width.getD b 0 = 3 := by
  decide

/-- A write into flat memory updates the cell `address mod 2048`. -/
theorem write8_flat (contents : Nat → Nat) (z : Int) (v : Nat) :
    write8 (make_flat_2k_mem contents) z v =
      make_flat_2k_mem
        (fun i => if i = (z % 65536).toNat % 2048 then v % 256 else contents i) := rfl

theorem decode_flat (contents : Nat → Nat) (z : Int) :
    decode_address (make_flat_2k_mem contents) z = (z % 65536).toNat % 2048 := rfl

/-- No operation writes the cycle counter. -/
theorem step_execute_cycles (c : cpu_info) (op : OpCode) (m : AddressMode) (a : Int) :
    (step_execute c op m a).cycles = c.cycles := by
  cases op <;>
    simp only [step_execute, set_zn, set_dirty, push8, push16, pull8, pull16, pull_status,
      push_status] <;>
    (try split_ifs) <;> rfl

theorem and_one_01 (v : Nat) : v &&& 1 = 0 ∨ v &&& 1 = 1 := by
  rw [Nat.and_one_is_mod]
  omega

theorem b2n_01 (b : Bool) : b2n b = 0 ∨ b2n b = 1 := by
  cases b <;> simp [b2n]

theorem sbit_01 (v : Int) (n : Nat) : sbit v n = 0 ∨ sbit v n = 1 := by
  unfold sbit
  omega

/-- Every operation leaves each flag at 0 or 1 when it was so before. -/
theorem step_execute_flags (c : cpu_info) (op : OpCode) (m : AddressMode) (a : Int)
    (h : flags_ok c) : flags_ok (step_execute c op m a) := by
  obtain ⟨hN, hV, hD, hI, hZ, hC⟩ := h
  cases op <;>
    simp only [step_execute, set_zn, set_dirty, push8, push16, pull8, pull16, pull_status,
      push_status] <;>
    (try split_ifs) <;>
    refine ⟨?_, ?_, ?_, ?_, ?_, ?_⟩ <;>
    first
      | assumption
      | exact and_one_01 _
      | exact b2n_01 _
      | exact sbit_01 _ _
      | exact Or.inl rfl
      | exact Or.inr rfl

theorem push8_flags (p : Nat) (c : cpu_info) (h : flags_ok c) : flags_ok (push8 p c) := h

theorem push16_flags (p : Nat) (c : cpu_info) (h : flags_ok c) : flags_ok (push16 p c) := h

theorem push_status_flags (c : cpu_info) (h : flags_ok c) : flags_ok (push_status c) := h

/-! ## Claims -/

/-- C1: with cycle counter 0 and a flat 2KB memory holding 0xA9 at the program
counter p and v at p+1 (mod 2^16), one `step` sets A = v, Zero = 1 exactly when
v = 0, Negative = bit 7 of v, the program counter to p + 2 (mod 2^16), and
leaves X, Y, the stack pointer, Carry, Overflow, Decimal and InterruptDisable
as they were. -/
theorem lda_immediate_step (cpu : cpu_info) (contents : Nat → Nat) (v : Nat)
    (hcyc : cpu.cycles = 0)
    (hmem : cpu.mem = make_flat_2k_mem contents)
    (hop : contents (cpu.pc % 65536 % 2048) = 0xA9)
    (harg : contents ((cpu.pc + 1) % 65536 % 2048) = v) :
    (step cpu).a = v ∧
    ((step cpu).Z = 1 ↔ v = 0) ∧ ((step cpu).Z = 0 ↔ v ≠ 0) ∧
    (step cpu).N = v / 128 % 2 ∧
    (step cpu).pc = (cpu.pc + 2) % 65536 ∧
    (step cpu).x = cpu.x ∧ (step cpu).y = cpu.y ∧ (step cpu).s = cpu.s ∧
    (step cpu).C = cpu.C ∧ (step cpu).V = cpu.V ∧ (step cpu).D = cpu.D ∧
    (step cpu).I = cpu.I := by
  have hinstr : read8 cpu.mem cpu.pc = 0xA9 := by
    rw [hmem, read8_flat]
    have : ((cpu.pc : Int) % 65536).toNat = cpu.pc % 65536 := by omega
    rw [this, hop]
  have hval : read8 cpu.mem ((cpu.pc : Int) + 1) = v := by
    rw [hmem, read8_flat]
    have : (((cpu.pc : Int) + 1) % 65536).toNat = (cpu.pc + 1) % 65536 := by omega
    rw [this, harg]
  have h1 : int_opcodes.getD 0xA9 OpCode.BADOP = OpCode.LDA := rfl
  have h2 : int_address_modes.getD 0xA9 AddressMode.noAddressMode = AddressMode.imm := rfl
  have h3 : int_cycles.getD 0xA9 0 = 2 := rfl
  have h4 : int_width.getD 0xA9 0 = 2 := rfl
  rw [step_fetch cpu (le_of_eq hcyc), hinstr, h1, h2, h3, h4]
  simp only [step_execute, step_address, set_zn, read8_i16, hval, b2n, bit7_eq]
  refine ⟨trivial, ?_, ?_, trivial, ?_, trivial, trivial, trivial, trivial, trivial, trivial,
    trivial⟩
  · by_cases hz : v = 0 <;> simp [hz]
  · by_cases hz : v = 0 <;> simp [hz]
  · unfold u16i
    omega

/-- C1, the scenario: `A9 05` at 0x0600, one step, gives A = 5, Zero = 0,
Negative = 0 and program counter 0x0602. -/
theorem lda_immediate_step_witness :
    (boot lda5_image).cycles = 0 ∧ lda5_image 0x600 = 0xA9 ∧ lda5_image 0x601 = 5 ∧
    (step (boot lda5_image)).a = 5 ∧ (step (boot lda5_image)).Z = 0 ∧
    (step (boot lda5_image)).N = 0 ∧ (step (boot lda5_image)).pc = 0x0602 := by
  have h := lda_immediate_step (boot lda5_image) lda5_image 5 rfl rfl (by decide) (by decide)
  exact ⟨rfl, by decide, by decide, h.1, h.2.2.1.mpr (by decide), h.2.2.2.1, h.2.2.2.2.1⟩

/-- C2, as stated, fails: after two successive invocations of `step` on the
image `A9 00 F0 02` the program counter is 0x0602, not 0x0606, because the
second invocation only counts the cycle counter down. -/
theorem lda_beq_two_invocations :
    (step (boot beq_image)).Z = 1 ∧
    (step (step (boot beq_image))).pc = 0x0602 ∧
    ¬ ((step (boot beq_image)).Z = 1 ∧ (step (step (boot beq_image))).pc = 0x0606) := by
  decide

/-- C2, amended: from the reset state with stack pointer 0xFF, program counter
0x0600 and `A9 00 F0 02` at 0x0600 in flat memory, the first invocation of
`step` yields Zero = 1 and leaves 2 in the cycle counter, the second and third
invocations only count it down with the program counter at 0x0602, and the
fourth invocation takes the branch: program counter 0x0606. -/
theorem lda_beq_four_invocations (contents : Nat → Nat)
    (h0 : contents 0x600 = 0xA9) (h1 : contents 0x601 = 0x00)
    (h2 : contents 0x602 = 0xF0) (h3 : contents 0x603 = 0x02) :
    (step (boot contents)).Z = 1 ∧
    (step (boot contents)).cycles = 2 ∧
    (step (step (boot contents))).pc = 0x0602 ∧
    (step (step (step (boot contents)))).pc = 0x0602 ∧
    (step (step (step (boot contents)))).cycles = 0 ∧
    (step (step (step (step (boot contents))))).pc = 0x0606 := by
  have e1 : step (boot contents) =
      { boot contents with stats := 1, cycles := 2, pc := 0x602, a := 0, Z := 1, N := 0 } := by
    rw [step_fetch _ (le_of_eq rfl)]
    have hi : read8 (boot contents).mem (boot contents).pc = 0xA9 := by
      simp [boot, init_cpu_info, read8_flat, h0]
    rw [hi]
    have t1 : int_opcodes.getD 0xA9 OpCode.BADOP = OpCode.LDA := rfl
    have t2 : int_address_modes.getD 0xA9 AddressMode.noAddressMode = AddressMode.imm := rfl
    have t3 : int_cycles.getD 0xA9 0 = 2 := rfl
    have t4 : int_width.getD 0xA9 0 = 2 := rfl
    rw [t1, t2, t3, t4]
    simp [step_execute, step_address, set_zn, read8_i16, b2n, boot, init_cpu_info, read8_flat,
      h1, u16i]
  have e2 : step (step (boot contents)) =
      { boot contents with stats := 2, cycles := 1, pc := 0x602, a := 0, Z := 1, N := 0 } := by
    rw [e1, step_idle _ (show (0 : Int) < 2 by decide)]
    rfl
  have e3 : step (step (step (boot contents))) =
      { boot contents with stats := 3, cycles := 0, pc := 0x602, a := 0, Z := 1, N := 0 } := by
    rw [e2, step_idle _ (show (0 : Int) < 1 by decide)]
    rfl
  have e4 : (step (step (step (step (boot contents))))).pc = 0x606 := by
    rw [e3, step_fetch _ (le_of_eq rfl)]
    have hi : read8 (boot contents).mem (0x602 : Nat) = 0xF0 := by
      simp [boot, init_cpu_info, read8_flat, h2]
    simp only [hi]
    have t1 : int_opcodes.getD 0xF0 OpCode.BADOP = OpCode.BEQ := rfl
    have t2 : int_address_modes.getD 0xF0 AddressMode.noAddressMode = AddressMode.rel := rfl
    have t4 : int_width.getD 0xF0 0 = 2 := rfl
    rw [t1, t2, t4]
    simp [step_execute, step_address, read8_i16, boot, init_cpu_info, read8_flat,
      h3, u16i, i8, i16]
  refine ⟨?_, ?_, ?_, ?_, ?_, e4⟩
  · rw [e1]
  · rw [e1]
  · rw [e2]
  · rw [e3]
  · rw [e3]

/-- C2, amended, on the zeroed memory holding only `A9 00 F0 02`. -/
theorem lda_beq_four_invocations_witness :
    beq_image 0x600 = 0xA9 ∧ beq_image 0x601 = 0x00 ∧
    beq_image 0x602 = 0xF0 ∧ beq_image 0x603 = 0x02 ∧
    (step (boot beq_image)).Z = 1 ∧
    (step (step (step (step (boot beq_image))))).pc = 0x0606 :=
  have h := lda_beq_four_invocations beq_image (by decide) (by decide) (by decide) (by decide)
  ⟨by decide, by decide, by decide, by decide, h.1, h.2.2.2.2.2⟩

/-- C3, as stated, fails: with A = 0xFF and X = 0x01 the step that executes INX
leaves X = 0x02 and Zero = 0, not X = 0x00 and Zero = 1. -/
theorem inx_from_one_not_zero :
    inx_state.a = 0xFF ∧ inx_state.x = 0x01 ∧ inx_state.cycles = 0 ∧
    fetch_opcode inx_state = 0xE8 ∧
    (step inx_state).x = 0x02 ∧ (step inx_state).Z = 0 ∧
    ¬ ((step inx_state).x = 0x00 ∧ (step inx_state).Z = 1 ∧ (step inx_state).N = 0 ∧
        (step inx_state).a = 0xFF) := by
  decide

/-- C3, amended: with A = 0xFF and cycle counter 0, a step that executes INX
(0xE8 under the program counter) leaves A = 0xFF; from X = 0x01 it gives
X = 0x02, Zero = 0, Negative = 0, and from X = 0xFF it gives X = 0x00,
Zero = 1, Negative = 0. -/
theorem inx_step (cpu : cpu_info) (hcyc : cpu.cycles = 0) (hop : fetch_opcode cpu = 0xE8)
    (ha : cpu.a = 0xFF) :
    (cpu.x = 0x01 →
      (step cpu).x = 0x02 ∧ (step cpu).Z = 0 ∧ (step cpu).N = 0 ∧ (step cpu).a = 0xFF) ∧
    (cpu.x = 0xFF →
      (step cpu).x = 0x00 ∧ (step cpu).Z = 1 ∧ (step cpu).N = 0 ∧ (step cpu).a = 0xFF) := by
  have t1 : int_opcodes.getD 0xE8 OpCode.BADOP = OpCode.INX := rfl
  rw [step_decode cpu (le_of_eq hcyc), fetch_op, hop, t1]
  constructor <;> intro hx <;> simp [step_execute, set_zn, b2n, u8, hx, ha]

/-- C3, amended, at the state of the scenario (A = 0xFF, X = 0x01). -/
theorem inx_step_witness :
    inx_state.cycles = 0 ∧ fetch_opcode inx_state = 0xE8 ∧ inx_state.a = 0xFF ∧
    inx_state.x = 0x01 ∧
    (step inx_state).x = 0x02 ∧ (step inx_state).Z = 0 ∧ (step inx_state).N = 0 ∧
    (step inx_state).a = 0xFF :=
  ⟨rfl, by decide, rfl, rfl, (inx_step inx_state rfl (by decide) rfl).1 rfl⟩

/-- C4, the defect: ADC #0xFF with A = 0x00 and Carry = 1 has the true sum
256 > 255, yet the step leaves Carry = 0 (the test `over < a` compares the
wrapped sum 0x00 with A = 0x00). -/
theorem adc_carry_lost :
    adc_carry_state.cycles = 0 ∧ fetch_op adc_carry_state = OpCode.ADC ∧
    adc_carry_state.a = 0x00 ∧ fetch_operand adc_carry_state = 0xFF ∧
    adc_carry_state.C = 1 ∧
    255 < adc_carry_state.a + fetch_operand adc_carry_state + adc_carry_state.C ∧
    (step adc_carry_state).a = 0x00 ∧ (step adc_carry_state).C = 0 := by
  decide

/-- C5, as stated, fails: ADC #0x01 with A = 0x7F and Carry = 0 has the signed
sum 128, outside -128..127, and the operands share a sign that the result
0x80 does not have, yet Overflow is 0 after the step. -/
theorem adc_overflow_not_set :
    adc_overflow_state.cycles = 0 ∧ fetch_op adc_overflow_state = OpCode.ADC ∧
    adc_overflow_state.a = 0x7F ∧ fetch_operand adc_overflow_state = 0x01 ∧
    adc_overflow_state.C = 0 ∧
    ¬ (-128 ≤ i8 0x7F + i8 0x01 + 0 ∧ i8 0x7F + i8 0x01 + 0 ≤ 127) ∧
    (step adc_overflow_state).a = 0x80 ∧ (step adc_overflow_state).V = 0 ∧
    ¬ ((step adc_overflow_state).V = 1 ↔
        ¬ (-128 ≤ i8 0x7F + i8 0x01 + 0 ∧ i8 0x7F + i8 0x01 + 0 ≤ 127)) := by
  decide

/-- C5, amended: a step that executes ADC leaves the Overflow flag as it was,
for every accumulator, operand and carry-in. -/
theorem adc_overflow_unchanged (cpu : cpu_info) (hcyc : cpu.cycles ≤ 0)
    (hop : fetch_op cpu = OpCode.ADC) :
    (step cpu).V = cpu.V := by
  rw [step_decode cpu hcyc, hop]
  rfl

/-- C5, amended, at ADC #0x01 with A = 0x7F. -/
theorem adc_overflow_unchanged_witness :
    adc_overflow_state.cycles ≤ 0 ∧ fetch_op adc_overflow_state = OpCode.ADC ∧
    (step adc_overflow_state).V = adc_overflow_state.V :=
  ⟨by decide, by decide, adc_overflow_unchanged adc_overflow_state (by decide) (by decide)⟩

/-- C6, the defect: ORA #0x80 with A = 0x00 and Y = 0x00 stores the result
0x80 in Y, leaves A = 0x00 and takes Zero = 1, Negative = 0 from the old A. -/
theorem ora_writes_y :
    ora_state.cycles = 0 ∧ fetch_op ora_state = OpCode.ORA ∧
    ora_state.a = 0x00 ∧ ora_state.y = 0x00 ∧ fetch_operand ora_state = 0x80 ∧
    (step ora_state).a = 0x00 ∧ (step ora_state).y = 0x80 ∧
    (step ora_state).Z = 1 ∧ (step ora_state).N = 0 := by
  decide

/-- C7, the defect: EOR #0xFF with A = 0xFF computes 0x00 but never stores it:
after the step A = 0xFF, Zero = 0 and Negative = 1. -/
theorem eor_result_dropped :
    eor_state.cycles = 0 ∧ fetch_op eor_state = OpCode.EOR ∧
    eor_state.a = 0xFF ∧ fetch_operand eor_state = 0xFF ∧
    (step eor_state).a = 0xFF ∧ (step eor_state).Z = 0 ∧ (step eor_state).N = 1 := by
  decide

/-- C8, the defect: ASL has one form only, shifting A left by the byte read at
`address`.  Opcode 0x0A with A = 0x01 and the byte 0 at address 0 leaves
A = 0x01; opcode 0x06 on the byte 0x03 at 0x0010 with A = 0x01 leaves the
byte 0x03 and makes A = 0x08. -/
theorem asl_shifts_accumulator_by_operand :
    (asl_acc_state.cycles = 0 ∧ fetch_opcode asl_acc_state = 0x0A ∧
      fetch_op asl_acc_state = OpCode.ASL ∧ asl_acc_state.a = 0x01 ∧
      fetch_operand asl_acc_state = 0x00 ∧ (step asl_acc_state).a = 0x01) ∧
    (asl_zp_state.cycles = 0 ∧ fetch_opcode asl_zp_state = 0x06 ∧
      fetch_op asl_zp_state = OpCode.ASL ∧ asl_zp_state.a = 0x01 ∧
      fetch_address asl_zp_state = 0x10 ∧ fetch_operand asl_zp_state = 0x03 ∧
      (step asl_zp_state).a = 0x08 ∧ read8 (step asl_zp_state).mem 0x10 = 0x03) := by
  decide

/-- C9, the defect: ROL A (0x2A) with A = 0xC0 and all flags clear produces
0x81, yet Carry = 0 (bit 0 of the old value, not bit 7), Zero = 1 (bit 7 of the
new value) and Negative = 0 (never written).  ROR A (0x6A) with A = 0x01
produces 0x80 with Carry = 1, Zero = 1 and Negative = 0. -/
theorem rotate_flags_wrong :
    (rol_acc_state.cycles = 0 ∧ fetch_opcode rol_acc_state = 0x2A ∧
      fetch_op rol_acc_state = OpCode.ROL ∧ rol_acc_state.a = 0xC0 ∧
      (step rol_acc_state).a = 0x81 ∧ (step rol_acc_state).C = 0 ∧
      (step rol_acc_state).Z = 1 ∧ (step rol_acc_state).N = 0) ∧
    (ror_acc_state.cycles = 0 ∧ fetch_opcode ror_acc_state = 0x6A ∧
      fetch_op ror_acc_state = OpCode.ROR ∧ ror_acc_state.a = 0x01 ∧
      (step ror_acc_state).a = 0x80 ∧ (step ror_acc_state).C = 1 ∧
      (step ror_acc_state).Z = 1 ∧ (step ror_acc_state).N = 0) := by
  decide

/-- C10: a step that executes CMP, CPX or CPY with register value r (A, X, Y
respectively) and operand byte m sets Carry = 1 exactly when r ≥ m, Zero = 1
exactly when r = m, Negative = bit 7 of (r - m) mod 256, and leaves A, X, Y,
the stack pointer, Overflow, Decimal, InterruptDisable and the memory as they
were. -/
theorem compare_step (cpu : cpu_info) (r : Nat) (hcyc : cpu.cycles = 0)
    (hop : (fetch_op cpu = OpCode.CMP ∧ r = cpu.a) ∨ (fetch_op cpu = OpCode.CPX ∧ r = cpu.x) ∨
      (fetch_op cpu = OpCode.CPY ∧ r = cpu.y)) :
    ((step cpu).C = 1 ↔ r ≥ fetch_operand cpu) ∧
    ((step cpu).C = 0 ↔ r < fetch_operand cpu) ∧
    ((step cpu).Z = 1 ↔ r = fetch_operand cpu) ∧
    ((step cpu).Z = 0 ↔ r ≠ fetch_operand cpu) ∧
    (step cpu).N = ((((r : Int) - fetch_operand cpu) % 256) / 128).toNat ∧
    (step cpu).a = cpu.a ∧ (step cpu).x = cpu.x ∧ (step cpu).y = cpu.y ∧
    (step cpu).s = cpu.s ∧ (step cpu).V = cpu.V ∧ (step cpu).D = cpu.D ∧
    (step cpu).I = cpu.I ∧ (step cpu).mem = cpu.mem := by
  rw [step_decode cpu (le_of_eq hcyc)]
  rcases hop with ⟨h, hr⟩ | ⟨h, hr⟩ | ⟨h, hr⟩ <;>
    · rw [h]
      subst hr
      simp only [step_execute, sbit7_eq, b2n_eq_one, b2n_eq_zero, decide_eq_true_eq,
        decide_eq_false_iff_not, not_le, ge_iff_le]
      exact ⟨Iff.rfl, Iff.rfl, Iff.rfl, Iff.rfl, rfl, trivial, trivial, trivial, trivial,
        trivial, trivial, trivial, trivial⟩

/-- C10 at CMP #0x30 with A = 0x40: Carry = 1, Zero = 0, Negative = 0. -/
theorem compare_step_witness :
    cmp_state.cycles = 0 ∧ fetch_op cmp_state = OpCode.CMP ∧ cmp_state.a = 0x40 ∧
    fetch_operand cmp_state = 0x30 ∧
    (step cmp_state).C = 1 ∧ (step cmp_state).Z = 0 ∧ (step cmp_state).N = 0 ∧
    (step cmp_state).a = 0x40 :=
  have h := compare_step cmp_state 0x40 rfl (Or.inl ⟨by decide, rfl⟩)
  ⟨rfl, by decide, rfl, by decide, h.1.mpr (by decide), h.2.2.2.1.mpr (by decide),
    h.2.2.2.2.1.trans (by decide), h.2.2.2.2.2.1⟩

/-- C11: a step that executes one of the eight branches at address p with
operand byte d takes the branch exactly when the flag of the operation has
its value (BCC: Carry = 0, BCS: Carry = 1, BEQ: Zero = 1, BNE: Zero = 0,
BMI: Negative = 1, BPL: Negative = 0, BVC: Overflow = 0, BVS: Overflow = 1).
Taken, the program counter is (p + 2 + d as a signed byte) mod 2^16; not taken
it is (p + 2) mod 2^16.  Registers, stack pointer, flags and memory stay as
they were. -/
theorem branch_step (cpu : cpu_info) (flag want : Nat) (hcyc : cpu.cycles = 0)
    (hop : (fetch_op cpu = OpCode.BCC ∧ flag = cpu.C ∧ want = 0) ∨
      (fetch_op cpu = OpCode.BCS ∧ flag = cpu.C ∧ want = 1) ∨
      (fetch_op cpu = OpCode.BEQ ∧ flag = cpu.Z ∧ want = 1) ∨
      (fetch_op cpu = OpCode.BNE ∧ flag = cpu.Z ∧ want = 0) ∨
      (fetch_op cpu = OpCode.BMI ∧ flag = cpu.N ∧ want = 1) ∨
      (fetch_op cpu = OpCode.BPL ∧ flag = cpu.N ∧ want = 0) ∨
      (fetch_op cpu = OpCode.BVC ∧ flag = cpu.V ∧ want = 0) ∨
      (fetch_op cpu = OpCode.BVS ∧ flag = cpu.V ∧ want = 1)) :
    (flag = want →
      (step cpu).pc =
        (((cpu.pc : Int) + 2 + i8 (read8 cpu.mem ((cpu.pc : Int) + 1))) % 65536).toNat) ∧
    (flag ≠ want → (step cpu).pc = (cpu.pc + 2) % 65536) ∧
    (step cpu).a = cpu.a ∧ (step cpu).x = cpu.x ∧ (step cpu).y = cpu.y ∧
    (step cpu).s = cpu.s ∧ (step cpu).N = cpu.N ∧ (step cpu).V = cpu.V ∧
    (step cpu).D = cpu.D ∧ (step cpu).I = cpu.I ∧ (step cpu).Z = cpu.Z ∧
    (step cpu).C = cpu.C ∧ (step cpu).mem = cpu.mem := by
  have hmem : fetch_op cpu ∈
      [OpCode.BCC, OpCode.BCS, OpCode.BEQ, OpCode.BNE, OpCode.BMI, OpCode.BPL, OpCode.BVC,
        OpCode.BVS] := by
    rcases hop with h | h | h | h | h | h | h | h <;> simp [h.1]
  obtain ⟨hmode, hwidth⟩ := branch_decode cpu hmem
  have haddr : u16i (fetch_address cpu) =
      (((cpu.pc : Int) + 2 + i8 (read8 cpu.mem ((cpu.pc : Int) + 1))) % 65536).toNat := by
    unfold fetch_address
    rw [hmode, hwidth]
    simp only [step_address, u16i_i16]
    rfl
  have hpc : u16i ((cpu.pc : Int) + 2) = (cpu.pc + 2) % 65536 := by
    unfold u16i
    omega
  rw [step_decode cpu (le_of_eq hcyc), hwidth]
  rcases hop with h | h | h | h | h | h | h | h <;>
    · obtain ⟨h1, h2, h3⟩ := h
      subst h2 h3
      rw [h1]
      simp only [step_execute]
      split_ifs with hc
      · exact ⟨fun _ => haddr, fun hn => absurd hc hn, rfl, rfl, rfl, rfl, rfl, rfl, rfl, rfl,
          rfl, rfl, rfl⟩
      · exact ⟨fun he => absurd he hc, fun _ => hpc, rfl, rfl, rfl, rfl, rfl, rfl, rfl, rfl,
          rfl, rfl, rfl⟩

/-- C11 at BEQ +0x10 on 0x0600 with Zero = 1: the branch goes to 0x0612. -/
theorem branch_step_witness :
    beq_taken_state.cycles = 0 ∧ fetch_op beq_taken_state = OpCode.BEQ ∧
    beq_taken_state.Z = 1 ∧ (step beq_taken_state).pc = 0x0612 ∧
    (step beq_taken_state).Z = 1 :=
  have h := branch_step beq_taken_state 1 1 rfl
    (Or.inr (Or.inr (Or.inl ⟨by decide, rfl, rfl⟩)))
  ⟨rfl, by decide, rfl, (h.1 rfl).trans (by decide), h.2.2.2.2.2.2.2.2.2.2.1⟩

/-- C12: a step that executes INX, INY, DEX, DEY (target: the register) or
INC, DEC (target: the byte at the effective address) replaces the old target
value t by (t + 1) mod 256 for increments and (t - 1) mod 256 for decrements,
sets Zero = 1 exactly when the new value is 0 and Negative = bit 7 of the new
value, and leaves Carry, Overflow, Decimal and InterruptDisable as they were. -/
theorem increment_decrement_step (cpu : cpu_info) (t new want : Nat) (hcyc : cpu.cycles = 0)
    (hop :
      (fetch_op cpu = OpCode.INX ∧ t = cpu.x ∧ new = (step cpu).x ∧ want = (t + 1) % 256) ∨
      (fetch_op cpu = OpCode.INY ∧ t = cpu.y ∧ new = (step cpu).y ∧ want = (t + 1) % 256) ∨
      (fetch_op cpu = OpCode.INC ∧ t = fetch_operand cpu ∧
        new = read8 (step cpu).mem (fetch_address cpu) ∧ want = (t + 1) % 256) ∨
      (fetch_op cpu = OpCode.DEX ∧ t = cpu.x ∧ new = (step cpu).x ∧
        want = (((t : Int) - 1) % 256).toNat) ∨
      (fetch_op cpu = OpCode.DEY ∧ t = cpu.y ∧ new = (step cpu).y ∧
        want = (((t : Int) - 1) % 256).toNat) ∨
      (fetch_op cpu = OpCode.DEC ∧ t = fetch_operand cpu ∧
        new = read8 (step cpu).mem (fetch_address cpu) ∧
        want = (((t : Int) - 1) % 256).toNat)) :
    new = want ∧
    ((step cpu).Z = 1 ↔ new = 0) ∧ ((step cpu).Z = 0 ↔ new ≠ 0) ∧
    (step cpu).N = new / 128 % 2 ∧
    (step cpu).C = cpu.C ∧ (step cpu).V = cpu.V ∧ (step cpu).D = cpu.D ∧
    (step cpu).I = cpu.I := by
  rw [step_decode cpu (le_of_eq hcyc)] at hop ⊢
  rcases hop with h | h | h | h | h | h <;>
    · obtain ⟨h1, h2, h3, h4⟩ := h
      rw [h1] at h3 ⊢
      simp only [step_execute, set_zn, read8_write8_same, u8_u8, u8_u8i] at h3 ⊢
      subst h2 h3 h4
      simp only [bit7_eq, b2n_eq_one, b2n_eq_zero, decide_eq_true_eq, decide_eq_false_iff_not]
      exact ⟨rfl, trivial, trivial, trivial, trivial, trivial, trivial, trivial⟩

/-- C12 at DEC 0x10 on the byte 0x00: it becomes 0xFF, Zero = 0, Negative = 1. -/
theorem increment_decrement_step_witness :
    dec_zp_state.cycles = 0 ∧ fetch_op dec_zp_state = OpCode.DEC ∧
    fetch_operand dec_zp_state = 0x00 ∧
    read8 (step dec_zp_state).mem (fetch_address dec_zp_state) = 0xFF ∧
    (step dec_zp_state).Z = 0 ∧ (step dec_zp_state).N = 1 ∧
    (step dec_zp_state).C = dec_zp_state.C :=
  have h := increment_decrement_step dec_zp_state 0x00
    (read8 (step dec_zp_state).mem (fetch_address dec_zp_state)) 0xFF rfl
    (Or.inr (Or.inr (Or.inr (Or.inr (Or.inr ⟨by decide, by decide, rfl, by decide⟩)))))
  ⟨rfl, by decide, by decide, h.1, h.2.2.1.mpr (by rw [h.1]; decide),
    h.2.2.2.1.trans (by rw [h.1]), h.2.2.2.2.1⟩

/-- C13: over flat memory, for every 16-bit value v and every stack pointer s,
`push16 v` followed by `pull16` returns v and restores the stack pointer; the
high byte is written at 0x0100 + s and the low byte at 0x0100 + ((s - 1) mod
256), no other cell changes, and both lie in 0x0100..0x01FF.  A `push8` at
s = 0x00 writes address 0x0100 only and leaves the stack pointer at 0xFF. -/
theorem push16_pull16_flat (cpu : cpu_info) (contents : Nat → Nat) (v b : Nat)
    (hmem : cpu.mem = make_flat_2k_mem contents) (hs : cpu.s < 256) (hv : v < 65536) :
    (pull16 (push16 v cpu)).1 = v ∧
    (pull16 (push16 v cpu)).2.s = cpu.s ∧
    (push16 v cpu).s = (cpu.s + 254) % 256 ∧
    read8 (push16 v cpu).mem ((0x100 + cpu.s : Nat) : Int) = v / 256 ∧
    read8 (push16 v cpu).mem ((0x100 + (cpu.s + 255) % 256 : Nat) : Int) = v % 256 ∧
    (∀ i, i ≠ 0x100 + cpu.s → i ≠ 0x100 + (cpu.s + 255) % 256 →
      (push16 v cpu).mem.store i = contents i) ∧
    (0x100 ≤ 0x100 + cpu.s ∧ 0x100 + cpu.s ≤ 0x1FF) ∧
    (0x100 ≤ 0x100 + (cpu.s + 255) % 256 ∧ 0x100 + (cpu.s + 255) % 256 ≤ 0x1FF) ∧
    (cpu.s = 0x00 →
      (push8 b cpu).s = 0xFF ∧ read8 (push8 b cpu).mem 0x0100 = b % 256 ∧
      ∀ i, i ≠ 0x100 → (push8 b cpu).mem.store i = contents i) := by
  have hp : push16 v cpu =
      { cpu with
        mem := make_flat_2k_mem (fun i =>
          if i = 0x100 + (cpu.s + 255) % 256 then v % 256
          else if i = 0x100 + cpu.s then v / 256 else contents i),
        s := (cpu.s + 254) % 256 } := by
    unfold push16
    simp only []
    rw [push8_flat contents cpu _ hmem hs, push8_flat _ _ _ rfl (Nat.mod_lt _ (by decide))]
    have e1 : u8 (u16 v) % 256 = v % 256 := by
      unfold u8 u16
      omega
    have e2 : u8 (u16 v >>> 8) % 256 = v / 256 := by
      unfold u8 u16
      rw [Nat.shiftRight_eq_div_pow]
      omega
    have e3 : ((cpu.s + 255) % 256 + 255) % 256 = (cpu.s + 254) % 256 := by omega
    simp only [e1, e2, e3]
  have hq : pull16 (push16 v cpu) = (v, { push16 v cpu with s := cpu.s }) := by
    rw [hp]
    unfold pull16
    rw [pull8_flat _ _ rfl]
    simp only []
    rw [pull8_flat _ _ rfl]
    have a1 : ((cpu.s + 254) % 256 + 1) % 256 = (cpu.s + 255) % 256 := by omega
    have a2 : ((cpu.s + 255) % 256 + 1) % 256 = cpu.s := by omega
    have a3 : ¬ (0x100 + cpu.s = 0x100 + (cpu.s + 255) % 256) := by omega
    simp only [a1, a2, a3, if_true, if_false]
    rw [hi_lo_or _ _ (Nat.mod_lt _ (by decide))]
    have a4 : u16 (v / 256 * 256 + v % 256) = v := by
      unfold u16
      omega
    rw [a4]
  refine ⟨by rw [hq], by rw [hq], by rw [hp], ?_, ?_, ?_, by omega, by omega, ?_⟩
  · rw [hp, read8_flat]
    have a : (((0x100 + cpu.s : Nat) : Int) % 65536).toNat % 2048 = 0x100 + cpu.s := by omega
    have a3 : ¬ (0x100 + cpu.s = 0x100 + (cpu.s + 255) % 256) := by omega
    simp only [a, a3, if_true, if_false]
  · rw [hp, read8_flat]
    have a : (((0x100 + (cpu.s + 255) % 256 : Nat) : Int) % 65536).toNat % 2048 =
        0x100 + (cpu.s + 255) % 256 := by omega
    simp only [a, if_true]
  · intro i h1 h2
    rw [hp]
    simp only [make_flat_2k_mem, h1, h2, if_false]
  · intro h0
    rw [push8_flat contents cpu b hmem hs, h0]
    refine ⟨rfl, ?_, ?_⟩
    · rw [read8_flat]
      simp
    · intro i hi
      simp only [make_flat_2k_mem]
      simp [hi]

/-- C13 at the boundary: with stack pointer 0x00 the value 0xBEEF comes back
from the stack and the stack pointer is 0x00 again. -/
theorem push16_pull16_flat_witness :
    stack_wrap_state.s = 0x00 ∧
    (pull16 (push16 0xBEEF stack_wrap_state)).1 = 0xBEEF ∧
    (pull16 (push16 0xBEEF stack_wrap_state)).2.s = 0x00 ∧
    read8 (push16 0xBEEF stack_wrap_state).mem 0x0100 = 0xBE ∧
    read8 (push16 0xBEEF stack_wrap_state).mem 0x01FF = 0xEF ∧
    (push8 0x42 stack_wrap_state).s = 0xFF :=
  have h := push16_pull16_flat stack_wrap_state (fun _ => 0) 0xBEEF 0x42 rfl (by decide)
    (by decide)
  ⟨rfl, h.1, h.2.1, h.2.2.2.1, h.2.2.2.2.1, (h.2.2.2.2.2.2.2.2 rfl).1⟩


/-- C14: when the six flags are each 0 or 1, `push_status` writes at the stack
address a byte whose bits 7, 6, 3, 2, 1, 0 are Negative, Overflow, Decimal,
InterruptDisable, Zero, Carry, and `pull_status` after it restores the six
flags and the stack pointer, whatever values n, v, d, i, z, c the flags were
given in between. -/
theorem push_pull_status (cpu : cpu_info) (n v d i z c : Nat)
    (hN : cpu.N = 0 ∨ cpu.N = 1) (hV : cpu.V = 0 ∨ cpu.V = 1) (hD : cpu.D = 0 ∨ cpu.D = 1)
    (hI : cpu.I = 0 ∨ cpu.I = 1) (hZ : cpu.Z = 0 ∨ cpu.Z = 1) (hC : cpu.C = 0 ∨ cpu.C = 1)
    (hs : cpu.s < 256) :
    (read8 (push_status cpu).mem ((0x100 ||| cpu.s : Nat) : Int) / 128 % 2 = cpu.N ∧
      read8 (push_status cpu).mem ((0x100 ||| cpu.s : Nat) : Int) / 64 % 2 = cpu.V ∧
      read8 (push_status cpu).mem ((0x100 ||| cpu.s : Nat) : Int) / 8 % 2 = cpu.D ∧
      read8 (push_status cpu).mem ((0x100 ||| cpu.s : Nat) : Int) / 4 % 2 = cpu.I ∧
      read8 (push_status cpu).mem ((0x100 ||| cpu.s : Nat) : Int) / 2 % 2 = cpu.Z ∧
      read8 (push_status cpu).mem ((0x100 ||| cpu.s : Nat) : Int) % 2 = cpu.C) ∧
    (pull_status { push_status cpu with N := n, V := v, D := d, I := i, Z := z, C := c }).N
      = cpu.N ∧
    (pull_status { push_status cpu with N := n, V := v, D := d, I := i, Z := z, C := c }).V
      = cpu.V ∧
    (pull_status { push_status cpu with N := n, V := v, D := d, I := i, Z := z, C := c }).D
      = cpu.D ∧
    (pull_status { push_status cpu with N := n, V := v, D := d, I := i, Z := z, C := c }).I
      = cpu.I ∧
    (pull_status { push_status cpu with N := n, V := v, D := d, I := i, Z := z, C := c }).Z
      = cpu.Z ∧
    (pull_status { push_status cpu with N := n, V := v, D := d, I := i, Z := z, C := c }).C
      = cpu.C ∧
    (pull_status { push_status cpu with N := n, V := v, D := d, I := i, Z := z, C := c }).s
      = cpu.s := by
  have hp : cpu.N * 128 + cpu.V * 64 + cpu.D * 8 + cpu.I * 4 + cpu.Z * 2 + cpu.C < 256 := by
    omega
  have hb : read8 (push_status cpu).mem ((0x100 ||| cpu.s : Nat) : Int) =
      cpu.N * 128 + cpu.V * 64 + cpu.D * 8 + cpu.I * 4 + cpu.Z * 2 + cpu.C := by
    rw [push_status_eq cpu hN hV hD hI hZ hC]
    unfold push8
    simp only [read8_write8_same, u8_u8]
    unfold u8
    omega
  have hq : pull_status
      { push_status cpu with N := n, V := v, D := d, I := i, Z := z, C := c } =
      { cpu with
        mem := write8 cpu.mem ((0x100 ||| cpu.s : Nat) : Int)
          (cpu.N * 128 + cpu.V * 64 + cpu.D * 8 + cpu.I * 4 + cpu.Z * 2 + cpu.C),
        N := (cpu.N * 128 + cpu.V * 64 + cpu.D * 8 + cpu.I * 4 + cpu.Z * 2 + cpu.C) / 2 ^ 7 % 2,
        V := (cpu.N * 128 + cpu.V * 64 + cpu.D * 8 + cpu.I * 4 + cpu.Z * 2 + cpu.C) / 2 ^ 6 % 2,
        D := (cpu.N * 128 + cpu.V * 64 + cpu.D * 8 + cpu.I * 4 + cpu.Z * 2 + cpu.C) / 2 ^ 3 % 2,
        I := (cpu.N * 128 + cpu.V * 64 + cpu.D * 8 + cpu.I * 4 + cpu.Z * 2 + cpu.C) / 2 ^ 2 % 2,
        Z := (cpu.N * 128 + cpu.V * 64 + cpu.D * 8 + cpu.I * 4 + cpu.Z * 2 + cpu.C) / 2 ^ 1 % 2,
        C := (cpu.N * 128 + cpu.V * 64 + cpu.D * 8 + cpu.I * 4 + cpu.Z * 2 + cpu.C) % 2 } := by
    rw [push_status_eq cpu hN hV hD hI hZ hC]
    unfold pull_status
    rw [pull8_push8 cpu _ hs hp]
    simp only [Nat.shiftRight_eq_div_pow, Nat.and_one_is_mod]
  rw [hb, hq]
  simp only []
  refine ⟨⟨?_, ?_, ?_, ?_, ?_, ?_⟩, ?_, ?_, ?_, ?_, ?_, ?_, trivial⟩ <;> omega

/-- C14 with Negative, Zero and Carry set: the byte on the stack is 0x83 and
the flags come back after all six were cleared. -/
theorem push_pull_status_witness :
    flags_state.s = 0xFF ∧
    read8 (push_status flags_state).mem 0x01FF = 0x83 ∧
    (pull_status { push_status flags_state with
      N := 0, V := 0, D := 0, I := 0, Z := 0, C := 0 }).N = 1 ∧
    (pull_status { push_status flags_state with
      N := 0, V := 0, D := 0, I := 0, Z := 0, C := 0 }).s = 0xFF :=
  have h := push_pull_status flags_state 0 0 0 0 0 0 (by decide) (by decide) (by decide)
    (by decide) (by decide) (by decide) (by decide)
  ⟨rfl, by decide, h.2.1, h.2.2.2.2.2.2.2⟩

/-- C15: a step that executes JSR (0x20) at address p, with operand word t and
stack pointer s, writes the high byte of (p + 2) mod 2^16 at 0x0100 + s and
its low byte at 0x0100 + ((s - 1) mod 256), leaves the stack pointer at
(s - 2) mod 256 and the program counter at t; an RTS executed next on that
memory and stack pointer sets the program counter to (p + 3) mod 2^16 and the
stack pointer back to s.  The two stack addresses are assumed to designate
different cells, as they do in every memory layout of the program. -/
theorem jsr_rts_step (cpu : cpu_info) (hcyc : cpu.cycles = 0)
    (hop : fetch_opcode cpu = 0x20) (hs : cpu.s < 256)
    (hdist : decode_address cpu.mem ((0x100 + cpu.s : Nat) : Int) ≠
      decode_address cpu.mem ((0x100 + (cpu.s + 255) % 256 : Nat) : Int)) :
    read8 (step cpu).mem ((0x100 + cpu.s : Nat) : Int) = (cpu.pc + 2) % 65536 / 256 ∧
    read8 (step cpu).mem ((0x100 + (cpu.s + 255) % 256 : Nat) : Int)
      = (cpu.pc + 2) % 65536 % 256 ∧
    (step cpu).s = (cpu.s + 254) % 256 ∧
    (step cpu).pc = read16 cpu.mem ((cpu.pc : Int) + 1) ∧
    ∀ next : cpu_info, next.mem = (step cpu).mem → next.s = (step cpu).s →
      next.cycles ≤ 0 → fetch_op next = OpCode.RTS →
      (step next).pc = (cpu.pc + 3) % 65536 ∧ (step next).s = cpu.s := by
  have t1 : int_opcodes.getD 0x20 OpCode.BADOP = OpCode.JSR := rfl
  have t2 : int_address_modes.getD 0x20 AddressMode.noAddressMode = AddressMode.abso := rfl
  have t4 : int_width.getD 0x20 0 = 3 := rfl
  have hpush : u16 (u16i (((u16i ((cpu.pc : Int) + 3) : Nat) : Int) - 1)) = (cpu.pc + 2) % 65536 := by
    unfold u16 u16i
    omega
  have hstep : step cpu =
      { cpu with
        stats := cpu.stats + 1,
        cycles := int_cycles.getD 0x20 0,
        pc := read16 cpu.mem ((cpu.pc : Int) + 1),
        mem := write8 (write8 cpu.mem ((0x100 + cpu.s : Nat) : Int) ((cpu.pc + 2) % 65536 / 256))
          ((0x100 + (cpu.s + 255) % 256 : Nat) : Int) ((cpu.pc + 2) % 65536 % 256),
        s := (cpu.s + 254) % 256 } := by
    rw [step_decode cpu (le_of_eq hcyc)]
    unfold fetch_op fetch_address fetch_mode
    rw [hop, t1, t2, t4]
    simp only [step_execute, step_address, u16i_i16]
    rw [push16_eq
      { cpu with
        stats := cpu.stats + 1, cycles := int_cycles.getD 0x20 0,
        pc := u16i ((cpu.pc : Int) + 3) } _ hs]
    simp only [hpush]
    have e : u16i ((read16 cpu.mem ((cpu.pc : Int) + 1) : Nat) : Int)
        = read16 cpu.mem ((cpu.pc : Int) + 1) := by
      have hlt := read16_lt cpu.mem ((cpu.pc : Int) + 1)
      unfold u16i
      omega
    rw [e]
  have hH : read8 (step cpu).mem ((0x100 + cpu.s : Nat) : Int) = (cpu.pc + 2) % 65536 / 256 := by
    rw [hstep]
    simp only []
    rw [read8_write8_other _ _ _ _ (by rw [decode_write8]; exact Ne.symm hdist),
      read8_write8_same]
    unfold u8
    omega
  have hL : read8 (step cpu).mem ((0x100 + (cpu.s + 255) % 256 : Nat) : Int)
      = (cpu.pc + 2) % 65536 % 256 := by
    rw [hstep]
    simp only []
    rw [read8_write8_same]
    unfold u8
    omega
  refine ⟨hH, hL, by rw [hstep], by rw [hstep], ?_⟩
  intro next hm hsp hc hrts
  rw [hstep] at hsp
  simp only [] at hsp
  have hpull := pull16_of_stack
    { next with
      stats := next.stats + 1,
      cycles := int_cycles.getD (fetch_opcode next) 0,
      pc := u16i ((next.pc : Int) + int_width.getD (fetch_opcode next) 0) }
    cpu.s ((cpu.pc + 2) % 65536 / 256) ((cpu.pc + 2) % 65536 % 256) hs (by omega) (by omega)
    hsp (by rw [← hH, ← hm]) (by rw [← hL, ← hm])
  rw [step_decode next hc, hrts]
  simp only [step_execute]
  rw [hpull]
  simp only []
  refine ⟨?_, trivial⟩
  unfold u16
  omega

/-- C15 on JSR 0x0610 at 0x0600 with stack pointer 0xFF: 0x06 and 0x02 are
pushed at 0x01FF and 0x01FE, and the RTS at 0x0610 returns to 0x0603. -/
theorem jsr_rts_step_witness :
    jsr_state.cycles = 0 ∧ fetch_opcode jsr_state = 0x20 ∧ jsr_state.s = 0xFF ∧
    read8 (step jsr_state).mem 0x01FF = 0x06 ∧ read8 (step jsr_state).mem 0x01FE = 0x02 ∧
    (step jsr_state).s = 0xFD ∧ (step jsr_state).pc = 0x0610 ∧
    fetch_op jsr_done_state = OpCode.RTS ∧
    (step jsr_done_state).pc = 0x0603 ∧ (step jsr_done_state).s = 0xFF :=
  have h := jsr_rts_step jsr_state rfl (by decide) (by decide) (by decide)
  have h2 := h.2.2.2.2 jsr_done_state rfl (by decide) (by decide) (by decide)
  ⟨rfl, by decide, rfl, h.1, h.2.1, h.2.2.1, h.2.2.2.1.trans (by decide), by decide, h2.1, h2.2⟩

/-- C16: for every program counter, stack pointer s and flags that are 0 or 1,
`trigger_nmi` writes the high byte of the program counter at 0x0100 + s, the
low byte at 0x0100 + ((s - 1) mod 256) and the packed status byte of the flags
as they were at 0x0100 + ((s - 2) mod 256), leaves the stack pointer at
(s - 3) mod 256 and sets InterruptDisable = 1, whatever InterruptDisable was.
The three stack addresses are assumed to designate different cells, as they do
in every memory layout of the program. -/
theorem trigger_nmi_stack (cpu : cpu_info) (hs : cpu.s < 256)
    (hN : cpu.N = 0 ∨ cpu.N = 1) (hV : cpu.V = 0 ∨ cpu.V = 1) (hD : cpu.D = 0 ∨ cpu.D = 1)
    (hI : cpu.I = 0 ∨ cpu.I = 1) (hZ : cpu.Z = 0 ∨ cpu.Z = 1) (hC : cpu.C = 0 ∨ cpu.C = 1)
    (h12 : decode_address cpu.mem ((0x100 + cpu.s : Nat) : Int) ≠
      decode_address cpu.mem ((0x100 + (cpu.s + 255) % 256 : Nat) : Int))
    (h13 : decode_address cpu.mem ((0x100 + cpu.s : Nat) : Int) ≠
      decode_address cpu.mem ((0x100 + (cpu.s + 254) % 256 : Nat) : Int))
    (h23 : decode_address cpu.mem ((0x100 + (cpu.s + 255) % 256 : Nat) : Int) ≠
      decode_address cpu.mem ((0x100 + (cpu.s + 254) % 256 : Nat) : Int)) :
    read8 (trigger_nmi cpu).mem ((0x100 + cpu.s : Nat) : Int) = cpu.pc % 65536 / 256 ∧
    read8 (trigger_nmi cpu).mem ((0x100 + (cpu.s + 255) % 256 : Nat) : Int)
      = cpu.pc % 65536 % 256 ∧
    read8 (trigger_nmi cpu).mem ((0x100 + (cpu.s + 254) % 256 : Nat) : Int)
      = cpu.N * 128 + cpu.V * 64 + cpu.D * 8 + cpu.I * 4 + cpu.Z * 2 + cpu.C ∧
    (trigger_nmi cpu).s = (cpu.s + 253) % 256 ∧
    (trigger_nmi cpu).I = 1 := by
  have hp : cpu.N * 128 + cpu.V * 64 + cpu.D * 8 + cpu.I * 4 + cpu.Z * 2 + cpu.C < 256 := by
    omega
  have hmem : (trigger_nmi cpu).mem =
      write8 (write8 (write8 cpu.mem ((0x100 + cpu.s : Nat) : Int) (cpu.pc % 65536 / 256))
        ((0x100 + (cpu.s + 255) % 256 : Nat) : Int) (cpu.pc % 65536 % 256))
        ((0x100 + (cpu.s + 254) % 256 : Nat) : Int)
        (cpu.N * 128 + cpu.V * 64 + cpu.D * 8 + cpu.I * 4 + cpu.Z * 2 + cpu.C) ∧
      (trigger_nmi cpu).s = (cpu.s + 253) % 256 := by
    have h1 := push16_eq cpu cpu.pc hs
    have h2 := push_status_eq (push16 cpu.pc cpu) (by rw [h1]; exact hN) (by rw [h1]; exact hV)
      (by rw [h1]; exact hD) (by rw [h1]; exact hI) (by rw [h1]; exact hZ) (by rw [h1]; exact hC)
    have e1 : u8 (cpu.N * 128 + cpu.V * 64 + cpu.D * 8 + cpu.I * 4 + cpu.Z * 2 + cpu.C)
        = cpu.N * 128 + cpu.V * 64 + cpu.D * 8 + cpu.I * 4 + cpu.Z * 2 + cpu.C := by
      unfold u8
      omega
    have e2 : u8i ((((cpu.s + 254) % 256 : Nat) : Int) - 1) = (cpu.s + 253) % 256 := by
      unfold u8i
      omega
    unfold trigger_nmi
    simp only []
    rw [h2]
    unfold push8
    simp only []
    rw [h1]
    simp only [stack_or _ (Nat.mod_lt (cpu.s + 254) (by decide)), u16, e1, e2]
    exact ⟨trivial, trivial⟩
  have hu : ∀ v, v < 256 → u8 v = v := by
    intro v hv
    unfold u8
    omega
  refine ⟨?_, ?_, ?_, hmem.2, rfl⟩
  · rw [hmem.1,
      read8_write8_other _ _ _ _ (by rw [decode_write8, decode_write8]; exact Ne.symm h13),
      read8_write8_other _ _ _ _ (by rw [decode_write8]; exact Ne.symm h12),
      read8_write8_same, hu _ (by omega)]
  · rw [hmem.1,
      read8_write8_other _ _ _ _ (by rw [decode_write8, decode_write8]; exact Ne.symm h23),
      read8_write8_same, hu _ (by omega)]
  · rw [hmem.1, read8_write8_same, hu _ hp]

/-- C16 with program counter 0x1234 and stack pointer 0xFF: 0x12, 0x34 and the
status byte 0x81 go to 0x01FF, 0x01FE and 0x01FD. -/
theorem trigger_nmi_stack_witness :
    nmi_state.pc = 0x1234 ∧ nmi_state.s = 0xFF ∧ nmi_state.I = 0 ∧
    read8 (trigger_nmi nmi_state).mem 0x01FF = 0x12 ∧
    read8 (trigger_nmi nmi_state).mem 0x01FE = 0x34 ∧
    read8 (trigger_nmi nmi_state).mem 0x01FD = 0x81 ∧
    (trigger_nmi nmi_state).s = 0xFC ∧ (trigger_nmi nmi_state).I = 1 :=
  have h := trigger_nmi_stack nmi_state (by decide) (by decide) (by decide) (by decide)
    (by decide) (by decide) (by decide) (by decide) (by decide) (by decide)
  ⟨rfl, rfl, rfl, h.1, h.2.1, h.2.2.1, h.2.2.2.1, h.2.2.2.2⟩

/-- C17, the defect: with 0x34, 0x12 stored at 0xFFFA, 0xFFFB the 16-bit
little-endian value of the vector is 0x1234, yet `trigger_nmi` leaves the
program counter at 0x0034, the single byte at 0xFFFA; with 0x78, 0x56 at
0xFFFE, 0xFFFF a taken `trigger_irq` leaves it at 0x0078, not 0x5678. -/
theorem interrupt_vector_single_byte :
    (read16 (trigger_nmi nmi_state).mem 0xFFFA = 0x1234 ∧
      read8 (trigger_nmi nmi_state).mem 0xFFFA = 0x34 ∧
      read8 (trigger_nmi nmi_state).mem 0xFFFB = 0x12 ∧
      (trigger_nmi nmi_state).pc = 0x0034) ∧
    (irq_state.I = 0 ∧ read16 (trigger_irq irq_state).mem 0xFFFE = 0x5678 ∧
      (trigger_irq irq_state).I = 1 ∧ (trigger_irq irq_state).pc = 0x0078) := by
  decide

/-- C18, as stated, fails: with the halt indicator set and LDA #5 under the
program counter, a call of `step` still fetches and executes: A becomes 5 and
the program counter 0x0602. -/
theorem step_ignores_halt :
    halted_state.finished = 1 ∧ halted_state.cycles = 0 ∧
    halted_state.a = 0 ∧ halted_state.pc = 0x0600 ∧
    (step halted_state).a = 5 ∧ (step halted_state).pc = 0x0602 ∧
    ¬ ((step halted_state).pc = halted_state.pc ∧ (step halted_state).a = halted_state.a) := by
  decide

/-- C18, amended: BRK sets the halt indicator to 1; once the indicator is set,
the run loop of `main` calls `step` no more, so the whole record (program
counter, registers, flags, memory) stays as it is, and `step` itself, which
does not test the indicator, never clears it. -/
theorem halt_stops_main_loop (cpu : cpu_info) :
    (cpu.cycles ≤ 0 → fetch_op cpu = OpCode.BRK → (step cpu).finished = 1) ∧
    (cpu.finished ≠ 0 →
      (∀ fuel, main_loop fuel cpu = cpu) ∧ (step cpu).finished ≠ 0) := by
  constructor
  · intro hc hop
    rw [step_decode cpu hc, hop]
    rfl
  · intro hf
    constructor
    · intro fuel
      cases fuel with
      | zero => rfl
      | succ n => simp only [main_loop, hf, if_false]
    · by_cases hc : cpu.cycles ≤ 0
      · rw [step_decode cpu hc]
        rcases step_execute_finished
          { cpu with
            stats := cpu.stats + 1,
            cycles := int_cycles.getD (fetch_opcode cpu) 0,
            pc := u16i ((cpu.pc : Int) + int_width.getD (fetch_opcode cpu) 0) }
          (fetch_op cpu) (fetch_mode cpu) (fetch_address cpu) with h | h
        · rw [h]
          exact hf
        · rw [h]
          decide
      · rw [step_idle cpu (not_le.mp hc)]
        exact hf

/-- C18, amended, on BRK at 0x0600: the step sets the indicator, and the loop
of `main` started from there returns the record untouched. -/
theorem halt_stops_main_loop_witness :
    brk_state.cycles ≤ 0 ∧ fetch_op brk_state = OpCode.BRK ∧
    (step brk_state).finished = 1 ∧
    main_loop 10 (step brk_state) = step brk_state ∧
    (step (step brk_state)).finished ≠ 0 :=
  have h1 := (halt_stops_main_loop brk_state).1 (by decide) (by decide)
  have h2 := (halt_stops_main_loop (step brk_state)).2 (by rw [h1]; decide)
  ⟨by decide, by decide, h1, h2.1 10, h2.2⟩

/-- C19: when the byte under the program counter decodes to `BADOP`, a fetch
step leaves A, X, Y, the stack pointer, the six flags, the halt indicator and
the memory as they were. -/
theorem badop_step (cpu : cpu_info) (hcyc : cpu.cycles = 0)
    (hop : fetch_op cpu = OpCode.BADOP) :
    (step cpu).a = cpu.a ∧ (step cpu).x = cpu.x ∧ (step cpu).y = cpu.y ∧
    (step cpu).s = cpu.s ∧ (step cpu).N = cpu.N ∧ (step cpu).V = cpu.V ∧
    (step cpu).D = cpu.D ∧ (step cpu).I = cpu.I ∧ (step cpu).Z = cpu.Z ∧
    (step cpu).C = cpu.C ∧ (step cpu).finished = cpu.finished ∧
    (step cpu).mem = cpu.mem := by
  rw [step_decode cpu (le_of_eq hcyc), hop]
  exact ⟨rfl, rfl, rfl, rfl, rfl, rfl, rfl, rfl, rfl, rfl, rfl, rfl⟩

/-- C19 on the invalid byte 0x02 with A = 0x11 and Carry = 1. -/
theorem badop_step_witness :
    badop_state.cycles = 0 ∧ fetch_opcode badop_state = 0x02 ∧
    fetch_op badop_state = OpCode.BADOP ∧
    (step badop_state).a = 0x11 ∧ (step badop_state).C = 1 ∧
    (step badop_state).finished = 0 ∧ (step badop_state).mem = badop_state.mem :=
  have h := badop_step badop_state rfl (by decide)
  ⟨rfl, by decide, by decide, h.1, h.2.2.2.2.2.2.2.2.2.1, h.2.2.2.2.2.2.2.2.2.2.1,
    h.2.2.2.2.2.2.2.2.2.2.2⟩

/-- C20: every byte whose operation-table entry is not `BADOP` has width 1, 2
or 3; and a fetch step on an opcode that is not a branch, JMP, JSR, RTS or RTI
leaves the program counter at (p + width) mod 2^16. -/
theorem width_advances_pc :
    (∀ b, b < 256 → int_opcodes.getD b OpCode.BADOP ≠ OpCode.BADOP →
      int_width.getD b 0 = 1 ∨ int_width.getD b 0 = 2 ∨ int_width.getD b 0 = 3) ∧
    (∀ cpu : cpu_info, cpu.cycles ≤ 0 →
      fetch_op cpu ∉ [OpCode.BCC, OpCode.BCS, OpCode.BEQ, OpCode.BNE, OpCode.BMI, OpCode.BPL,
        OpCode.BVC, OpCode.BVS, OpCode.JMP, OpCode.JSR, OpCode.RTS, OpCode.RTI] →
      (step cpu).pc =
        (((cpu.pc : Int) + int_width.getD (fetch_opcode cpu) 0) % 65536).toNat) := by
  constructor
  · exact valid_width_small
  · intro cpu hc hop
    rw [step_decode cpu hc, step_execute_pc _ _ _ _ hop]
    rfl

/-- C20 on LDX 0x1234 (width 3) at 0x0600: the program counter becomes 0x0603. -/
theorem width_advances_pc_witness :
    ldx_abs_state.cycles ≤ 0 ∧ fetch_op ldx_abs_state = OpCode.LDX ∧
    int_width.getD (fetch_opcode ldx_abs_state) 0 = 3 ∧
    (step ldx_abs_state).pc = 0x0603 :=
  ⟨by decide, by decide, by decide,
    (width_advances_pc.2 ldx_abs_state (by decide) (by decide)).trans (by decide)⟩

/-- C21, as stated, fails: LDA 0xFF,X with X = 0x01 uses the address 0x0100,
not (0xFF + 0x01) mod 256 = 0x0000, and loads 0x22; LDA 0x10,X with X = 0x80
uses the address 0x10 - 128 = 0xFF90, not 0x0090, and loads 0x33. -/
theorem zero_page_x_leaves_page :
    (zpx_carry_state.cycles = 0 ∧ fetch_opcode zpx_carry_state = 0xB5 ∧
      fetch_mode zpx_carry_state = AddressMode.zpx ∧ zpx_carry_state.x = 0x01 ∧
      read8 zpx_carry_state.mem 0x0000 = 0x11 ∧ read8 zpx_carry_state.mem 0x0100 = 0x22 ∧
      fetch_address zpx_carry_state = 0x0100 ∧ (step zpx_carry_state).a = 0x22) ∧
    (zpx_signed_state.cycles = 0 ∧ fetch_opcode zpx_signed_state = 0xB5 ∧
      zpx_signed_state.x = 0x80 ∧
      read8 zpx_signed_state.mem 0x0090 = 0x44 ∧ read8 zpx_signed_state.mem 0xFF90 = 0x33 ∧
      fetch_address zpx_signed_state = -112 ∧ u16i (fetch_address zpx_signed_state) = 0xFF90 ∧
      (step zpx_signed_state).a = 0x33) := by
  decide

/-- C21, amended: in the zero-page+X and zero-page+Y modes, with operand byte
d and index register value r, the address used by `step` is d + r when
r < 128 and d + r - 256 when r ≥ 128 (the index is read as a signed byte and
the sum is not reduced modulo 256); LDA zero-page,X (0xB5) loads the byte at
that address. -/
theorem zero_page_indexed_address (cpu : cpu_info) (r : Nat)
    (hd : read8 cpu.mem ((cpu.pc : Int) + 1) < 256) (hr : r < 256)
    (hmode : (fetch_mode cpu = AddressMode.zpx ∧ r = cpu.x) ∨
      (fetch_mode cpu = AddressMode.zpy ∧ r = cpu.y)) :
    (r < 128 → fetch_address cpu = (read8 cpu.mem ((cpu.pc : Int) + 1) : Int) + r) ∧
    (128 ≤ r → fetch_address cpu = (read8 cpu.mem ((cpu.pc : Int) + 1) : Int) + r - 256) ∧
    (cpu.cycles = 0 → fetch_opcode cpu = 0xB5 →
      (step cpu).a = read8 cpu.mem (fetch_address cpu)) := by
  have haddr : fetch_address cpu = (read8 cpu.mem ((cpu.pc : Int) + 1) : Int) + i8 r := by
    unfold fetch_address
    rcases hmode with ⟨h, hx⟩ | ⟨h, hx⟩ <;>
      · rw [h, hx]
        simp only [step_address]
        unfold i16 i8
        split_ifs <;> omega
  refine ⟨?_, ?_, ?_⟩
  · intro h
    rw [haddr]
    unfold i8
    split_ifs <;> omega
  · intro h
    rw [haddr]
    unfold i8
    split_ifs <;> omega
  · intro hc hop
    have t1 : int_opcodes.getD 0xB5 OpCode.BADOP = OpCode.LDA := rfl
    rw [step_decode cpu (le_of_eq hc), fetch_op, hop, t1]
    rfl

/-- C21, amended, at LDA 0xFF,X with X = 0x01: the address is 0x0100. -/
theorem zero_page_indexed_address_witness :
    read8 zpx_carry_state.mem ((zpx_carry_state.pc : Int) + 1) = 0xFF ∧
    fetch_mode zpx_carry_state = AddressMode.zpx ∧ zpx_carry_state.x = 0x01 ∧
    fetch_address zpx_carry_state = 0xFF + 0x01 ∧
    (step zpx_carry_state).a = read8 zpx_carry_state.mem 0x0100 :=
  have h := zero_page_indexed_address zpx_carry_state 0x01 (by decide) (by decide)
    (Or.inl ⟨by decide, rfl⟩)
  ⟨by decide, by decide, rfl, (h.1 (by decide)).trans (by decide),
    (h.2.2 rfl (by decide)).trans (by decide)⟩

/-- C22: in the flat 2KB memory every address a designates cell a mod 2048;
after `write8 a v`, `read8 b` is v when b mod 2048 = a mod 2048 and is what it
was before when b mod 2048 differs from a mod 2048. -/
theorem flat_write_read (contents : Nat → Nat) (a b v : Nat) (hv : v < 256) :
    decode_address (make_flat_2k_mem contents) (a : Int) = a % 2048 ∧
    (b % 2048 = a % 2048 →
      read8 (write8 (make_flat_2k_mem contents) (a : Int) v) (b : Int) = v) ∧
    (b % 2048 ≠ a % 2048 →
      read8 (write8 (make_flat_2k_mem contents) (a : Int) v) (b : Int)
        = read8 (make_flat_2k_mem contents) (b : Int)) := by
  have ca : ((a : Int) % 65536).toNat % 2048 = a % 2048 := by omega
  have cb : ((b : Int) % 65536).toNat % 2048 = b % 2048 := by omega
  refine ⟨?_, ?_, ?_⟩
  · rw [decode_flat, ca]
  · intro h
    rw [write8_flat, read8_flat, ca, cb, if_pos h]
    omega
  · intro h
    rw [write8_flat, read8_flat, read8_flat, ca, cb, if_neg h]

/-- C22 through the mirror: a byte written at 0x0010 is read at 0x0810, and
the byte at 0x0011 is not disturbed. -/
theorem flat_write_read_witness :
    decode_address (make_flat_2k_mem (fun _ => 0)) 0x0810 = 0x0010 ∧
    read8 (write8 (make_flat_2k_mem (fun _ => 0)) 0x0010 0xAB) 0x0810 = 0xAB ∧
    read8 (write8 (make_flat_2k_mem (fun _ => 0)) 0x0010 0xAB) 0x0011 = 0x00 :=
  ⟨(flat_write_read (fun _ => 0) 0x0810 0x0010 0xAB (by decide)).1,
    (flat_write_read (fun _ => 0) 0x0010 0x0810 0xAB (by decide)).2.1 (by decide),
    ((flat_write_read (fun _ => 0) 0x0010 0x0011 0xAB (by decide)).2.2 (by decide)).trans
      (by decide)⟩

/-- C23: over flat memory `write16 a v` stores the low byte of v in the cell of
a and the high byte in the cell of (a + 1) mod 2^16, each address reduced
modulo 2048 on its own, changes no other cell, and `read16 a` then returns v;
at a = 0x07FF and at a = 0xFFFF the high byte is in cell 0. -/
theorem flat_write16_read16 (contents : Nat → Nat) (a v : Nat)
    (ha : a < 65536) (hv : v < 65536) :
    (write16 (make_flat_2k_mem contents) (a : Int) v).store (a % 2048) = v % 256 ∧
    (write16 (make_flat_2k_mem contents) (a : Int) v).store ((a + 1) % 65536 % 2048)
      = v / 256 ∧
    (∀ i, i ≠ a % 2048 → i ≠ (a + 1) % 65536 % 2048 →
      (write16 (make_flat_2k_mem contents) (a : Int) v).store i = contents i) ∧
    read8 (write16 (make_flat_2k_mem contents) (a : Int) v) (a : Int) = v % 256 ∧
    read8 (write16 (make_flat_2k_mem contents) (a : Int) v) (((a + 1) % 65536 : Nat) : Int)
      = v / 256 ∧
    read16 (write16 (make_flat_2k_mem contents) (a : Int) v) (a : Int) = v ∧
    (a = 0x07FF → (write16 (make_flat_2k_mem contents) (a : Int) v).store 0 = v / 256) ∧
    (a = 0xFFFF → (write16 (make_flat_2k_mem contents) (a : Int) v).store 0 = v / 256) := by
  have hw : write16 (make_flat_2k_mem contents) (a : Int) v =
      make_flat_2k_mem (fun i =>
        if i = (a + 1) % 65536 % 2048 then v / 256
        else if i = a % 2048 then v % 256 else contents i) := by
    unfold write16
    simp only [write8_flat, u16i, u16, u8]
    congr 1
    funext i
    have c1 : (((((a : Int) % 65536).toNat : Nat) : Int) % 65536).toNat % 2048 = a % 2048 := by
      omega
    have c2 : ((((((a : Int) % 65536).toNat : Nat) : Int) + 1) % 65536).toNat % 2048
        = (a + 1) % 65536 % 2048 := by omega
    have c3 : v % 65536 % 256 % 256 = v % 256 := by omega
    have c4 : ((v % 65536) >>> 8) % 256 % 256 = v / 256 := by
      rw [Nat.shiftRight_eq_div_pow]
      omega
    rw [c1, c2, c3, c4]
  have hne : ¬ (a % 2048 = (a + 1) % 65536 % 2048) := by omega
  have ca : ((a : Int) % 65536).toNat % 2048 = a % 2048 := by omega
  have ca1 : ((((a + 1) % 65536 : Nat) : Int) % 65536).toNat % 2048
      = (a + 1) % 65536 % 2048 := by omega
  have r0 : read8 (write16 (make_flat_2k_mem contents) (a : Int) v) (a : Int) = v % 256 := by
    rw [hw, read8_flat, ca]
    simp only [hne, if_false, if_true]
  have r1 : read8 (write16 (make_flat_2k_mem contents) (a : Int) v)
      (((a + 1) % 65536 : Nat) : Int) = v / 256 := by
    rw [hw, read8_flat, ca1]
    simp only [if_true]
  have s0 : (write16 (make_flat_2k_mem contents) (a : Int) v).store (a % 2048) = v % 256 := by
    rw [hw]
    simp only [make_flat_2k_mem, hne, if_false, if_true]
  have s1 : (write16 (make_flat_2k_mem contents) (a : Int) v).store ((a + 1) % 65536 % 2048)
      = v / 256 := by
    rw [hw]
    simp only [make_flat_2k_mem, if_true]
  refine ⟨s0, s1, ?_, r0, r1, ?_, ?_, ?_⟩
  · intro i h1 h2
    rw [hw]
    simp only [make_flat_2k_mem, h1, h2, if_false]
  · have e : read8 (write16 (make_flat_2k_mem contents) (a : Int) v)
        (((u16i (a : Int) : Nat) : Int) + 1) = v / 256 := by
      rw [← r1]
      unfold read8 decode_address u16i
      congr 2
      omega
    have e0 : read8 (write16 (make_flat_2k_mem contents) (a : Int) v)
        ((u16i (a : Int) : Nat) : Int) = v % 256 := by
      rw [← r0]
      unfold read8 decode_address u16i
      congr 2
      omega
    have k1 : u16 ((v / 256) <<< 8) = (v / 256) <<< 8 := by
      unfold u16
      rw [Nat.shiftLeft_eq]
      omega
    have k2 : u16 (v % 256) = v % 256 := by
      unfold u16
      omega
    unfold read16
    simp only [e, e0]
    rw [k1, k2, hi_lo_or _ _ (by omega)]
    unfold u16
    omega
  · intro h
    rw [← s1, h]
  · intro h
    rw [← s1, h]

/-- C23 at the mirror boundary 0x07FF and at 0xFFFF: the value 0xBEEF comes
back and its high byte 0xBE sits in cell 0. -/
theorem flat_write16_read16_witness :
    read16 (write16 (make_flat_2k_mem (fun _ => 0)) 0x07FF 0xBEEF) 0x07FF = 0xBEEF ∧
    (write16 (make_flat_2k_mem (fun _ => 0)) 0x07FF 0xBEEF).store 0 = 0xBE ∧
    read16 (write16 (make_flat_2k_mem (fun _ => 0)) 0xFFFF 0xBEEF) 0xFFFF = 0xBEEF ∧
    (write16 (make_flat_2k_mem (fun _ => 0)) 0xFFFF 0xBEEF).store 0 = 0xBE :=
  have h1 := flat_write16_read16 (fun _ => 0) 0x07FF 0xBEEF (by decide) (by decide)
  have h2 := flat_write16_read16 (fun _ => 0) 0xFFFF 0xBEEF (by decide) (by decide)
  ⟨h1.2.2.2.2.2.1, h1.2.2.2.2.2.2.1 rfl, h2.2.2.2.2.2.1, h2.2.2.2.2.2.2.2 rfl⟩

/-- C24, the defect: `decode_nes` gives a location only for 0x0000..0x1FFF (RAM
cell address mod 0x0800); for 0x2000 and every later window (PPU, APU/IO,
disabled APU, cartridge) the function ends without returning one. -/
theorem decode_nes_partial :
    decode_nes 0x0000 = some 0x000 ∧ decode_nes 0x0801 = some 0x001 ∧
    decode_nes 0x1FFF = some 0x7FF ∧
    decode_nes 0x2000 = none ∧ decode_nes 0x3FFF = none ∧ decode_nes 0x4000 = none ∧
    decode_nes 0x4017 = none ∧ decode_nes 0x4018 = none ∧ decode_nes 0x401F = none ∧
    decode_nes 0x4020 = none ∧ decode_nes 0xFFFF = none := by
  decide

/-- C25: when the cycle counter n is positive, `step` sets it to n - 1 and
leaves the program counter, A, X, Y, the stack pointer, the six flags, the
halt indicator, the dirty signal and the memory as they were; when the counter
is 0, `step` fetches the opcode byte b and leaves the counter at the cycle
table entry of b. -/
theorem cycle_counter_step (cpu : cpu_info) :
    (0 < cpu.cycles →
      (step cpu).cycles = cpu.cycles - 1 ∧ (step cpu).pc = cpu.pc ∧
      (step cpu).a = cpu.a ∧ (step cpu).x = cpu.x ∧ (step cpu).y = cpu.y ∧
      (step cpu).s = cpu.s ∧ (step cpu).N = cpu.N ∧ (step cpu).V = cpu.V ∧
      (step cpu).D = cpu.D ∧ (step cpu).I = cpu.I ∧ (step cpu).Z = cpu.Z ∧
      (step cpu).C = cpu.C ∧ (step cpu).finished = cpu.finished ∧
      (step cpu).visual_dirty = cpu.visual_dirty ∧ (step cpu).mem = cpu.mem) ∧
    (cpu.cycles = 0 → (step cpu).cycles = int_cycles.getD (fetch_opcode cpu) 0) := by
  constructor
  · intro h
    rw [step_idle cpu h]
    exact ⟨rfl, rfl, rfl, rfl, rfl, rfl, rfl, rfl, rfl, rfl, rfl, rfl, rfl, rfl, rfl⟩
  · intro h
    rw [step_decode cpu (le_of_eq h), step_execute_cycles]

/-- C25 on `A9 05` at 0x0600: the fetch leaves 2 in the counter, and the next
call counts it down to 1 with A = 5 and the program counter 0x0602 untouched. -/
theorem cycle_counter_step_witness :
    (boot lda5_image).cycles = 0 ∧ fetch_opcode (boot lda5_image) = 0xA9 ∧
    (step (boot lda5_image)).cycles = 2 ∧
    (step (step (boot lda5_image))).cycles = 1 ∧
    (step (step (boot lda5_image))).pc = 0x0602 ∧
    (step (step (boot lda5_image))).a = 5 :=
  have h1 := (cycle_counter_step (boot lda5_image)).2 rfl
  have h2 := (cycle_counter_step (step (boot lda5_image))).1 (by decide)
  ⟨rfl, by decide, h1.trans (by decide), h2.1.trans (by decide), h2.2.1.trans (by decide),
    h2.2.2.1.trans (by decide)⟩

/-- C26: the record made by `init_cpu_info` has every flag at 0 or 1, and when
each of N, V, D, I, Z, C holds 0 or 1 before the call, each holds 0 or 1 after
`step` (whatever the opcode byte and the memory, PLP and RTI included), after
`trigger_nmi` and after `trigger_irq`. -/
theorem flags_stay_bits :
    (∀ (mem : memory) (stats : Int), flags_ok (init_cpu_info mem stats)) ∧
    (∀ cpu : cpu_info, flags_ok cpu →
      flags_ok (step cpu) ∧ flags_ok (trigger_nmi cpu) ∧ flags_ok (trigger_irq cpu)) := by
  constructor
  · intro mem stats
    exact ⟨Or.inl rfl, Or.inl rfl, Or.inl rfl, Or.inl rfl, Or.inl rfl, Or.inl rfl⟩
  · intro cpu h
    have hnmi : flags_ok (trigger_nmi cpu) := by
      have h2 := push_status_flags _ (push16_flags cpu.pc cpu h)
      obtain ⟨hN, hV, hD, _, hZ, hC⟩ := h2
      exact ⟨hN, hV, hD, Or.inr rfl, hZ, hC⟩
    refine ⟨?_, hnmi, ?_⟩
    · by_cases hc : cpu.cycles ≤ 0
      · rw [step_decode cpu hc]
        exact step_execute_flags _ _ _ _ h
      · rw [step_idle cpu (not_le.mp hc)]
        exact h
    · unfold trigger_irq
      split_ifs
      · exact hnmi
      · exact h

/-- C26 on PLP pulling the byte 0xFF: all six flags come out as 1. -/
theorem flags_stay_bits_witness :
    flags_ok plp_state ∧ fetch_op plp_state = OpCode.PLP ∧
    read8 plp_state.mem 0x01FF = 0xFF ∧
    flags_ok (step plp_state) ∧ (step plp_state).N = 1 ∧ (step plp_state).C = 1 ∧
    flags_ok (trigger_nmi plp_state) ∧ flags_ok (trigger_irq plp_state) :=
  have h := flags_stay_bits.2 plp_state (by decide)
  ⟨by decide, by decide, by decide, h.1, by decide, by decide, h.2.1, h.2.2⟩

end Emu6502
